import Mathlib

/-!
Verification of the adbr socket-address grammar and global-option model.

Strings from the Rust source are modelled as `List Char`.  The integer
parsers/formatters of the Rust standard library (`u16::from_str`,
`Ipv4Addr`/`Ipv6Addr`/`SocketAddr` `FromStr` and `Display`) are embedded
faithfully below, following `core::net::parser` and `core::net::ip_addr`.
-/

/-- Convert a string literal to the `List Char` model of Rust strings. -/
def str (s : String) : List Char := s.toList

/-! ## Characters and digits -/

/-- The raw digit value of a character, as in Rust's `char::to_digit`
(before the radix check): `0`-`9`, `a`-`z`, `A`-`Z`. -/
def rawDigit (c : Char) : Option Nat :=
  if '0' ≤ c ∧ c ≤ '9' then some (c.toNat - 48)
  else if 'a' ≤ c ∧ c ≤ 'z' then some (c.toNat - 87)
  else if 'A' ≤ c ∧ c ≤ 'Z' then some (c.toNat - 55)
  else none

/-- Rust's `char::to_digit radix` for `radix ≤ 36`. -/
def charToDigit (radix : Nat) (c : Char) : Option Nat :=
  match rawDigit c with
  | some d => if d < radix then some d else none
  | none => none

/-- The character for digit `d` (lower-case beyond 9), as produced by the
`Display` implementations of the unsigned integer types. -/
def digitChar (d : Nat) : Char :=
  if d < 10 then Char.ofNat (48 + d) else Char.ofNat (87 + d)

theorem rawDigit_digitChar (d : Nat) (h : d < 36) : rawDigit (digitChar d) = some d := by
  interval_cases d <;> decide

theorem charToDigit_digitChar (b d : Nat) (hd : d < b) (hb : b ≤ 36) :
    charToDigit b (digitChar d) = some d := by
  unfold charToDigit
  rw [rawDigit_digitChar d (Nat.lt_of_lt_of_le hd hb)]
  simp [hd]

theorem digitChar_ne_zero (d : Nat) (h : d < 36) (h0 : d ≠ 0) : digitChar d ≠ '0' := by
  interval_cases d <;> simp_all <;> decide

/-! ## Decimal / hexadecimal rendering of naturals -/

/-- Digits of `n` in base `b`, most significant first (`[]` for `0`);
fuel-based so that it reduces definitionally. -/
def natDigitsAux (b : Nat) : Nat → Nat → List Char
  | 0, _ => []
  | _, 0 => []
  | fuel + 1, n => natDigitsAux b fuel (n / b) ++ [digitChar (n % b)]

/-- Digits of `n` in base `b`, most significant first; empty for `0`. -/
def natDigits (b n : Nat) : List Char := natDigitsAux b n n

/-- The canonical base-`b` rendering of `n` (`"0"` for zero), as produced by
Rust's `Display` for unsigned integers (base 10) and by `LowerHex`-style
formatting of IPv6 groups (base 16). -/
def natRepr (b n : Nat) : List Char := if n = 0 then ['0'] else natDigits b n

theorem natDigitsAux_congr (b : Nat) (hb : 2 ≤ b) :
    ∀ n fuel fuel', n ≤ fuel → n ≤ fuel' →
      natDigitsAux b fuel n = natDigitsAux b fuel' n := by
  intro n
  induction n using Nat.strong_induction_on with
  | _ n ih =>
    intro fuel fuel' h h'
    match n, fuel, fuel' with
    | 0, 0, 0 => rfl
    | 0, 0, _ + 1 => rfl
    | 0, _ + 1, 0 => rfl
    | 0, _ + 1, _ + 1 => rfl
    | m + 1, f + 1, f' + 1 =>
      simp only [natDigitsAux]
      have hd : (m + 1) / b < m + 1 := Nat.div_lt_self (Nat.succ_pos m) hb
      have hf : (m + 1) / b ≤ f := by omega
      have hf' : (m + 1) / b ≤ f' := by omega
      rw [ih _ hd f f' hf hf']

theorem natDigits_zero (b : Nat) : natDigits b 0 = [] := by
  unfold natDigits natDigitsAux
  rfl

theorem natDigits_succ (b : Nat) (hb : 2 ≤ b) (n : Nat) (hn : n ≠ 0) :
    natDigits b n = natDigits b (n / b) ++ [digitChar (n % b)] := by
  obtain ⟨m, rfl⟩ : ∃ m, n = m + 1 := ⟨n - 1, by omega⟩
  show natDigitsAux b (m + 1) (m + 1) = _
  simp only [natDigitsAux]
  unfold natDigits
  have hd : (m + 1) / b < m + 1 := Nat.div_lt_self (Nat.succ_pos m) hb
  rw [natDigitsAux_congr b hb ((m + 1) / b) m ((m + 1) / b) (by omega) (Nat.le_refl _)]

theorem natDigits_mem (b : Nat) (hb : 2 ≤ b) :
    ∀ n, ∀ c ∈ natDigits b n, ∃ d, d < b ∧ c = digitChar d := by
  intro n
  induction n using Nat.strong_induction_on with
  | _ n ih =>
    intro c hc
    by_cases hn : n = 0
    · rw [hn, natDigits_zero] at hc
      simp at hc
    · rw [natDigits_succ b hb n hn] at hc
      rcases List.mem_append.1 hc with h | h
      · exact ih (n / b) (Nat.div_lt_self (Nat.pos_of_ne_zero hn) hb) c h
      · simp at h
        exact ⟨n % b, Nat.mod_lt n (by omega), h⟩

theorem natDigits_ne_nil (b : Nat) (hb : 2 ≤ b) (n : Nat) (hn : n ≠ 0) :
    natDigits b n ≠ [] := by
  rw [natDigits_succ b hb n hn]
  simp

theorem natDigits_length_le (b : Nat) (hb : 2 ≤ b) :
    ∀ k n, n < b ^ k → (natDigits b n).length ≤ k := by
  intro k
  induction k with
  | zero =>
    intro n hn
    simp at hn
    rw [hn, natDigits_zero]
    simp
  | succ k ihk =>
    intro n hn
    by_cases h0 : n = 0
    · rw [h0, natDigits_zero]; simp
    · rw [natDigits_succ b hb n h0]
      have : n / b < b ^ k := by
        rw [Nat.div_lt_iff_lt_mul (by omega)]
        calc n < b ^ (k + 1) := hn
        _ = b ^ k * b := by ring
      have := ihk (n / b) this
      simp [List.length_append]
      omega

/-- Accumulating digit fold, mirroring the accumulation performed by the
numeric parsers (`acc * b + digit`). -/
def foldDigits (b : Nat) : Nat → List Char → Nat
  | acc, [] => acc
  | acc, c :: l => foldDigits b (acc * b + (rawDigit c).getD 0) l

theorem foldDigits_append (b acc : Nat) (l1 l2 : List Char) :
    foldDigits b acc (l1 ++ l2) = foldDigits b (foldDigits b acc l1) l2 := by
  induction l1 generalizing acc with
  | nil => rfl
  | cons c l ih => simp [foldDigits, ih]

theorem foldDigits_natDigits (b : Nat) (hb : 2 ≤ b) (hb36 : b ≤ 36) :
    ∀ n acc, foldDigits b acc (natDigits b n) = acc * b ^ (natDigits b n).length + n := by
  intro n
  induction n using Nat.strong_induction_on with
  | _ n ih =>
    intro acc
    by_cases hn : n = 0
    · rw [hn, natDigits_zero]
      simp [foldDigits]
    · rw [natDigits_succ b hb n hn, foldDigits_append]
      have hlt : n / b < n := Nat.div_lt_self (Nat.pos_of_ne_zero hn) hb
      rw [ih (n / b) hlt acc]
      have hmod : n % b < 36 := Nat.lt_of_lt_of_le (Nat.mod_lt n (by omega)) hb36
      simp only [foldDigits, rawDigit_digitChar (n % b) hmod, Option.getD_some]
      rw [List.length_append]
      simp [pow_succ]
      have := Nat.div_add_mod n b
      ring_nf
      nlinarith [Nat.div_add_mod n b]

theorem natDigits_leading (b : Nat) (hb : 2 ≤ b) :
    ∀ n, n ≠ 0 → ∃ d l, natDigits b n = digitChar d :: l ∧ d ≠ 0 ∧ d < b := by
  intro n
  induction n using Nat.strong_induction_on with
  | _ n ih =>
    intro hn
    rw [natDigits_succ b hb n hn]
    by_cases hq : n / b = 0
    · rw [hq, natDigits_zero]
      refine ⟨n % b, [], rfl, ?_, Nat.mod_lt n (by omega)⟩
      have : n < b := by
        by_contra hge
        have : b ≤ n := by omega
        have : 1 ≤ n / b := (Nat.one_le_div_iff (by omega)).2 this
        omega
      rw [Nat.mod_eq_of_lt this]
      exact hn
    · obtain ⟨d, l, heq, hd0, hdb⟩ :=
        ih (n / b) (Nat.div_lt_self (Nat.pos_of_ne_zero hn) hb) hq
      exact ⟨d, l ++ [digitChar (n % b)], by rw [heq]; rfl, hd0, hdb⟩

theorem natRepr_mem (b : Nat) (hb : 2 ≤ b) (n : Nat) :
    ∀ c ∈ natRepr b n, ∃ d, d < b ∧ c = digitChar d := by
  unfold natRepr
  by_cases hn : n = 0
  · simp [hn]
    exact ⟨0, by omega, by decide⟩
  · simp [hn]
    exact fun c hc => natDigits_mem b hb n c hc

theorem natRepr_ne_nil (b : Nat) (hb : 2 ≤ b) (n : Nat) : natRepr b n ≠ [] := by
  unfold natRepr
  by_cases hn : n = 0
  · simp [hn]
  · simp [hn]
    exact natDigits_ne_nil b hb n hn

theorem natRepr_length_le (b : Nat) (hb : 2 ≤ b) (k n : Nat) (h : n < b ^ k) (hk : 1 ≤ k) :
    (natRepr b n).length ≤ k := by
  unfold natRepr
  by_cases hn : n = 0
  · simp [hn]; omega
  · simp [hn]
    exact natDigits_length_le b hb k n h

theorem foldDigits_natRepr (b : Nat) (hb : 2 ≤ b) (hb36 : b ≤ 36) (n : Nat) :
    foldDigits b 0 (natRepr b n) = n := by
  unfold natRepr
  by_cases hn : n = 0
  · simp [hn, foldDigits]
    decide
  · simp [hn]
    rw [foldDigits_natDigits b hb hb36 n 0]
    simp

theorem natRepr_head_ne_zero (b : Nat) (hb : 2 ≤ b) (hb36 : b ≤ 36) (n : Nat) (hn : n ≠ 0) :
    (natRepr b n).head? ≠ some '0' := by
  unfold natRepr
  simp [hn]
  obtain ⟨d, l, heq, hd0, hdb⟩ := natDigits_leading b hb n hn
  rw [heq]
  simp
  exact digitChar_ne_zero d (by omega) hd0

/-! ## The parser combinators of `core::net::parser`

Embedded from Rust's standard library, which the repository uses through
`value.parse::<u16>()`, `value.parse::<SocketAddr>()`, `value.parse::<Ipv4Addr>()`
and `v.parse::<Ipv6Addr>()` in `src/socket.rs`.  A reader takes the remaining
input and returns the parsed value plus the rest; `none` models the atomic
failure of `read_atomically` (no input consumed). -/

/-- `digit_count > max_digits` when a maximum is given. -/
def maxExceeded (maxDigits : Option Nat) (count : Nat) : Bool :=
  match maxDigits with
  | some m => m < count
  | none => false

/-- The digit-accumulation loop of `Parser::read_number`: returns the value,
the number of digits read and the rest, or `none` on overflow (`checked_mul` /
`checked_add` against `bound`) or when more than `maxDigits` digits appear. -/
def readNumberLoop (radix bound : Nat) (maxDigits : Option Nat) :
    Nat → Nat → List Char → Option (Nat × Nat × List Char)
  | result, count, [] => some (result, count, [])
  | result, count, c :: rest =>
    match charToDigit radix c with
    | none => some (result, count, c :: rest)
    | some d =>
      if bound < result * radix then none
      else if bound < result * radix + d then none
      else if maxExceeded maxDigits (count + 1) then none
      else readNumberLoop radix bound maxDigits (result * radix + d) (count + 1) rest

/-- The post-processing of `read_number`: at least one digit, and a leading
zero is rejected when `allow_zero_prefix` is off and there is more than one
digit. -/
def readNumberPost (allowZeroPrefix : Bool) (s : List Char) (r : Nat × Nat × List Char) :
    Option (Nat × List Char) :=
  if r.2.1 = 0 then none
  else if allowZeroPrefix = false ∧ s.head? = some '0' ∧ 1 < r.2.1 then none
  else some (r.1, r.2.2)

/-- `Parser::read_number(radix, max_digits, allow_zero_prefix)` reading into an
unsigned integer type with maximum value `bound`. -/
def readNumber (radix : Nat) (maxDigits : Option Nat) (allowZeroPrefix : Bool) (bound : Nat)
    (s : List Char) : Option (Nat × List Char) :=
  (readNumberLoop radix bound maxDigits 0 0 s).bind (readNumberPost allowZeroPrefix s)

/-- `Parser::read_given_char`. -/
def readGivenChar (c : Char) : List Char → Option (List Char)
  | c' :: rest => if c' = c then some rest else none
  | [] => none

/-- `Parser::read_separator(sep, index, inner)`: every group but the first is
preceded by the separator character. -/
def readSep {α : Type} (c : Char) (i : Nat) (inner : List Char → Option (α × List Char))
    (s : List Char) : Option (α × List Char) :=
  if i = 0 then inner s else (readGivenChar c s).bind inner

/-- An IPv4 address, one field per octet (each `< 256` when well-formed). -/
structure Ipv4Addr where
  o1 : Nat
  o2 : Nat
  o3 : Nat
  o4 : Nat
deriving DecidableEq

/-- One octet of `Parser::read_ipv4_addr`: `read_number(10, Some(3), false)`
into `u8`. -/
def readOctet (i : Nat) (s : List Char) : Option (Nat × List Char) :=
  readSep '.' i (readNumber 10 (some 3) false 255) s

/-- `Parser::read_ipv4_addr`: four dot-separated octets. -/
def readIpv4 (s : List Char) : Option (Ipv4Addr × List Char) :=
  (readOctet 0 s).bind fun p1 =>
  (readOctet 1 p1.2).bind fun p2 =>
  (readOctet 2 p2.2).bind fun p3 =>
  (readOctet 3 p3.2).bind fun p4 =>
  some (⟨p1.1, p2.1, p3.1, p4.1⟩, p4.2)

/-- An IPv6 address as eight 16-bit groups (each `< 65536` when well-formed). -/
structure Ipv6Addr where
  g0 : Nat
  g1 : Nat
  g2 : Nat
  g3 : Nat
  g4 : Nat
  g5 : Nat
  g6 : Nat
  g7 : Nat
deriving DecidableEq

/-- The hex-group alternative of one `read_groups` step: a group then the
following groups, or stop. -/
def groupHexStep (s : List Char) (recur : List Char → List Nat × Bool × List Char) :
    Option (Nat × List Char) → List Nat × Bool × List Char
  | some p => (p.1 :: (recur p.2).1, (recur p.2).2.1, (recur p.2).2.2)
  | none => ([], false, s)

/-- One `read_groups` step: a successful trailing embedded IPv4 address fills
two groups and ends the run, otherwise a hex group is attempted. -/
def groupV4Step (s : List Char) (recur : List Char → List Nat × Bool × List Char)
    (hexres : Option (Nat × List Char)) :
    Option (Ipv4Addr × List Char) → List Nat × Bool × List Char
  | some p => ([p.1.o1 * 256 + p.1.o2, p.1.o3 * 256 + p.1.o4], true, p.2)
  | none => groupHexStep s recur hexres

/-- The `read_groups` helper of `Parser::read_ipv6_addr`: reads up to `rem`
more colon-separated 16-bit hex groups starting at group index `i`, allowing a
trailing embedded IPv4 address when at least two slots remain.  Returns the
groups read, whether an embedded IPv4 address ended the run, and the rest. -/
def readGroupsAux : Nat → Nat → List Char → List Nat × Bool × List Char
  | 0, _, s => ([], false, s)
  | rem + 1, i, s =>
    groupV4Step s (readGroupsAux rem (i + 1))
      (readSep ':' i (readNumber 16 (some 4) true 65535) s)
      (if 1 ≤ rem then readSep ':' i readIpv4 s else none)

/-- Build an `Ipv6Addr` from a list of (up to) eight groups, missing groups
being zero — the zero-initialised `head` array of `read_ipv6_addr`. -/
def ipv6OfList (l : List Nat) : Ipv6Addr :=
  ⟨l.getD 0 0, l.getD 1 0, l.getD 2 0, l.getD 3 0,
   l.getD 4 0, l.getD 5 0, l.getD 6 0, l.getD 7 0⟩

/-- `read_given_char(':')` twice: the `::` separator. -/
def stripTwoColons : List Char → Option (List Char)
  | c1 :: c2 :: rest => if c1 = ':' ∧ c2 = ':' then some rest else none
  | _ => none

/-- `Parser::read_ipv6_addr`: a head run of groups, then optionally `::` and a
tail run (the tail is copied to the end, the middle groups staying zero).  An
embedded IPv4 address is not allowed before `::`. -/
def readIpv6 (s : List Char) : Option (Ipv6Addr × List Char) :=
  if (readGroupsAux 8 0 s).1.length = 8 then
    some (ipv6OfList (readGroupsAux 8 0 s).1, (readGroupsAux 8 0 s).2.2)
  else if (readGroupsAux 8 0 s).2.1 then none
  else
    (stripTwoColons (readGroupsAux 8 0 s).2.2).bind fun rest2 =>
      some
        (ipv6OfList ((readGroupsAux 8 0 s).1 ++
          List.replicate (8 - (readGroupsAux 8 0 s).1.length -
            (readGroupsAux (8 - ((readGroupsAux 8 0 s).1.length + 1)) 0 rest2).1.length) 0 ++
          (readGroupsAux (8 - ((readGroupsAux 8 0 s).1.length + 1)) 0 rest2).1),
         (readGroupsAux (8 - ((readGroupsAux 8 0 s).1.length + 1)) 0 rest2).2.2)

/-- `Parser::read_port`: `':'` then `read_number(10, None, true)` into `u16`. -/
def readPort (s : List Char) : Option (Nat × List Char) :=
  (readGivenChar ':' s).bind (readNumber 10 none true 65535)

/-- `Parser::read_scope_id`: `'%'` then `read_number(10, None, true)` into `u32`. -/
def readScopeId (s : List Char) : Option (Nat × List Char) :=
  (readGivenChar '%' s).bind (readNumber 10 none true 4294967295)

/-- A socket address (`std::net::SocketAddr`). -/
inductive SocketAddr
  | v4 (ip : Ipv4Addr) (port : Nat)
  | v6 (ip : Ipv6Addr) (port : Nat) (flowinfo : Nat) (scopeId : Nat)
deriving DecidableEq

/-- `Parser::read_socket_addr_v4`. -/
def readSockV4 (s : List Char) : Option ((Ipv4Addr × Nat) × List Char) :=
  (readIpv4 s).bind fun ipr =>
  (readPort ipr.2).bind fun pr =>
  some ((ipr.1, pr.1), pr.2)

/-- `read_given_char('[')`. -/
def stripLBracket : List Char → Option (List Char)
  | c :: r => if c = '[' then some r else none
  | [] => none

/-- `read_given_char(']')`. -/
def stripRBracket : List Char → Option (List Char)
  | c :: r => if c = ']' then some r else none
  | [] => none

/-- `scope_id.unwrap_or(0)` together with the input position after the
optional scope id. -/
def scopeOr (s2 : List Char) : Option (Nat × List Char) → Nat × List Char
  | some p => p
  | none => (0, s2)

/-- `Parser::read_socket_addr_v6`: `'['`, the address, an optional scope id,
`']'`, then the port. -/
def readSockV6 (s : List Char) : Option ((Ipv6Addr × Nat × Nat) × List Char) :=
  (stripLBracket s).bind fun s1 =>
  (readIpv6 s1).bind fun ipr =>
  (stripRBracket (scopeOr ipr.2 (readScopeId ipr.2)).2).bind fun s4 =>
  (readPort s4).bind fun pr =>
  some ((ipr.1, pr.1, (scopeOr ipr.2 (readScopeId ipr.2)).1), pr.2)

/-- `Parser::parse_with`: keep the value only when the whole input was
consumed. -/
def fullRead {α : Type} : Option (α × List Char) → Option α
  | some p => if p.2 = [] then some p.1 else none
  | none => none

/-- `Ipv4Addr::from_str`. -/
def ipv4FromStr (s : List Char) : Option Ipv4Addr := fullRead (readIpv4 s)

/-- `Ipv6Addr::from_str`. -/
def ipv6FromStr (s : List Char) : Option Ipv6Addr := fullRead (readIpv6 s)

/-- The IPv6 side of `read_socket_addr`. -/
def sockV6Side : Option ((Ipv6Addr × Nat × Nat) × List Char) → Option SocketAddr
  | some p => if p.2 = [] then some (.v6 p.1.1 p.1.2.1 0 p.1.2.2) else none
  | none => none

/-- The or-else of `read_socket_addr` under `parse_with`: a successful IPv4
socket read with leftover input fails without falling back to IPv6. -/
def sockOr (s : List Char) : Option ((Ipv4Addr × Nat) × List Char) → Option SocketAddr
  | some p => if p.2 = [] then some (.v4 p.1.1 p.1.2) else none
  | none => sockV6Side (readSockV6 s)

/-- `SocketAddr::from_str`. -/
def sockAddrFromStr (s : List Char) : Option SocketAddr := sockOr s (readSockV4 s)

/-- An IP address (`std::net::IpAddr`). -/
inductive IpAddr
  | v4 (a : Ipv4Addr)
  | v6 (a : Ipv6Addr)
deriving DecidableEq

/-- The IPv6 side of `read_ip_addr`. -/
def ipV6Side : Option (Ipv6Addr × List Char) → Option IpAddr
  | some p => if p.2 = [] then some (.v6 p.1) else none
  | none => none

/-- The or-else of `read_ip_addr` under `parse_with`. -/
def ipOr (s : List Char) : Option (Ipv4Addr × List Char) → Option IpAddr
  | some p => if p.2 = [] then some (.v4 p.1) else none
  | none => ipV6Side (readIpv6 s)

/-- `IpAddr::from_str`: try IPv4, else IPv6, then require full consumption. -/
def ipAddrFromStr (s : List Char) : Option IpAddr := ipOr s (readIpv4 s)

/-! ## Unsigned integer `FromStr` (`core::num`) -/

/-- The digit loop of `from_str_radix` (radix 10) with checked arithmetic
against `bound`. -/
def parseUIntDigits (bound : Nat) : Nat → List Char → Option Nat
  | acc, [] => some acc
  | acc, c :: rest =>
    match charToDigit 10 c with
    | none => none
    | some d =>
      if bound < acc * 10 then none
      else if bound < acc * 10 + d then none
      else parseUIntDigits bound (acc * 10 + d) rest

/-- `uN::from_str`: empty input fails, an optional leading `'+'` is allowed
(but `"+"` alone fails), `'-'` is not a digit for the unsigned types. -/
def uintFromStr (bound : Nat) (s : List Char) : Option Nat :=
  match s with
  | [] => none
  | c :: rest =>
    if c = '+' then
      match rest with
      | [] => none
      | _ => parseUIntDigits bound 0 rest
    else parseUIntDigits bound 0 s

/-- `u16::from_str`. -/
def u16FromStr (s : List Char) : Option Nat := uintFromStr 65535 s

/-- `u32::from_str`. -/
def u32FromStr (s : List Char) : Option Nat := uintFromStr 4294967295 s

/-! ## `Display` of IP addresses (`core::net::ip_addr`) -/

/-- `Ipv4Addr`'s `Display`: `a.b.c.d` in decimal. -/
def ipv4Display (a : Ipv4Addr) : List Char :=
  natRepr 10 a.o1 ++ ['.'] ++ natRepr 10 a.o2 ++ ['.'] ++ natRepr 10 a.o3 ++ ['.'] ++
    natRepr 10 a.o4

/-- The eight groups of an IPv6 address, in order. -/
def Ipv6Addr.segs (a : Ipv6Addr) : List Nat :=
  [a.g0, a.g1, a.g2, a.g3, a.g4, a.g5, a.g6, a.g7]

/-- `Ipv6Addr::to_ipv4_mapped` is `Some`: the segments are `[0,0,0,0,0,0xffff,_,_]`. -/
def Ipv6Addr.isV4Mapped (a : Ipv6Addr) : Bool :=
  a.g0 = 0 ∧ a.g1 = 0 ∧ a.g2 = 0 ∧ a.g3 = 0 ∧ a.g4 = 0 ∧ a.g5 = 65535

/-- The zero-span fold of `Ipv6Addr`'s `Display`: scans the groups keeping the
current zero run and the longest one seen (strictly longer wins, so the first
longest run is kept). -/
def lzrAux : List Nat → Nat → Nat × Nat → Nat × Nat → Nat × Nat
  | [], _, _, longest => longest
  | x :: xs, i, current, longest =>
    if x = 0 then
      match (if current.2 = 0 then (i, 1) else (current.1, current.2 + 1)) with
      | cur => lzrAux xs (i + 1) cur (if longest.2 < cur.2 then cur else longest)
    else lzrAux xs (i + 1) (0, 0) longest

/-- The longest (first) run of zero groups, as `(start, length)`. -/
def longestZeroRun (l : List Nat) : Nat × Nat := lzrAux l 0 (0, 0) (0, 0)

/-- `fmt_subslice`: hex groups joined by `':'`; the `i` argument tracks whether
a separator is due before the first group. -/
def glueFrom : Nat → List Nat → List Char
  | _, [] => []
  | i, g :: gs => (if i = 0 then [] else [':']) ++ natRepr 16 g ++ glueFrom (i + 1) gs

/-- `Ipv6Addr`'s `Display`: IPv4-mapped addresses print as `::ffff:a.b.c.d`;
otherwise the longest zero run of length at least 2 is compressed to `::`. -/
def ipv6Display (a : Ipv6Addr) : List Char :=
  if a.isV4Mapped then
    str "::ffff:" ++ ipv4Display ⟨a.g6 / 256, a.g6 % 256, a.g7 / 256, a.g7 % 256⟩
  else
    if 1 < (longestZeroRun a.segs).2 then
      glueFrom 0 (a.segs.take (longestZeroRun a.segs).1) ++ str "::" ++
        glueFrom 0 (a.segs.drop ((longestZeroRun a.segs).1 + (longestZeroRun a.segs).2))
    else glueFrom 0 a.segs

/-- `IpAddr`'s `Display`. -/
def ipAddrDisplay : IpAddr → List Char
  | .v4 a => ipv4Display a
  | .v6 a => ipv6Display a

/-! ## Error types (`src/error.rs`) -/

/-- A model of the boxed `source` error of `ParseError`. -/
inductive ErrSource
  | addrParse
  | intParse
  | ioErr (msg : List Char)
deriving DecidableEq

/-- `ParseError` of `src/error.rs`: the failing value, the target type name, an
optional description and an optional source error. -/
structure ParseError where
  value : List Char
  target : List Char
  description : List Char
  source : Option ErrSource
deriving DecidableEq

/-- `ParseError::with_description`. -/
def ParseError.withDescription (v target desc : List Char) : ParseError :=
  ⟨v, target, desc, none⟩

/-- `ParseError::with_source` (empty description). -/
def ParseError.withSrc (v target : List Char) (e : ErrSource) : ParseError :=
  ⟨v, target, [], some e⟩

/-- `AdbError` of `src/error.rs`. -/
inductive AdbError
  | io (msg : List Char)
  | parse (e : ParseError)
deriving DecidableEq

instance exceptDecEq {ε α : Type} [DecidableEq ε] [DecidableEq α] :
    DecidableEq (Except ε α) := fun x y =>
  match x, y with
  | .ok a, .ok b =>
    if h : a = b then isTrue (by rw [h])
    else isFalse (fun hc => h (Except.ok.inj hc))
  | .error a, .error b =>
    if h : a = b then isTrue (by rw [h])
    else isFalse (fun hc => h (Except.error.inj hc))
  | .ok _, .error _ => isFalse (fun hc => Except.noConfusion hc)
  | .error _, .ok _ => isFalse (fun hc => Except.noConfusion hc)

/-! ## String helpers (`str::strip_prefix`, `strip_suffix`, `split_once`) -/

/-- `str::strip_prefix` with a literal pattern. -/
def stripPre : List Char → List Char → Option (List Char)
  | [], s => some s
  | _ :: _, [] => none
  | p :: ps, c :: cs => if c = p then stripPre ps cs else none

/-- `str::strip_suffix` with a literal pattern. -/
def stripSuf (suf s : List Char) : Option (List Char) :=
  match stripPre suf.reverse s.reverse with
  | some r => some r.reverse
  | none => none

/-- `str::split_once` at the first occurrence of a character. -/
def splitOnce (c : Char) : List Char → Option (List Char × List Char)
  | [] => none
  | x :: xs =>
    if x = c then some ([], xs)
    else
      match splitOnce c xs with
      | some (l, r) => some (x :: l, r)
      | none => none

/-! ## The `Tcp` socket (`src/socket.rs`) -/

/-- `Tcp`: optional IP address and optional port. -/
structure Tcp where
  ip : Option IpAddr
  port : Option Nat
deriving DecidableEq

/-- `Tcp::new`. -/
def Tcp.new (host : IpAddr) (port : Nat) : Tcp := ⟨some host, some port⟩

/-- `Tcp::with_ip`. -/
def Tcp.withIp (host : IpAddr) : Tcp := ⟨some host, none⟩

/-- `Tcp::with_ipv4`. -/
def Tcp.withIpv4 (host : Ipv4Addr) : Tcp := ⟨some (.v4 host), none⟩

/-- `Tcp::with_ipv6`. -/
def Tcp.withIpv6 (host : Ipv6Addr) : Tcp := ⟨some (.v6 host), none⟩

/-- `Tcp::with_port`. -/
def Tcp.withPort (port : Nat) : Tcp := ⟨none, some port⟩

/-- `From<SocketAddr> for Tcp`. -/
def Tcp.ofSockAddr : SocketAddr → Tcp
  | .v4 ip p => ⟨some (.v4 ip), some p⟩
  | .v6 ip p _ _ => ⟨some (.v6 ip), some p⟩

/-- `Tcp`'s `Display` (`src/socket.rs` lines 245-256). -/
def Tcp.display (t : Tcp) : List Char :=
  match t.ip, t.port with
  | some (.v4 v4), some p => str "tcp:" ++ ipv4Display v4 ++ [':'] ++ natRepr 10 p
  | some (.v6 v6), some p => str "tcp:[" ++ ipv6Display v6 ++ str "]:" ++ natRepr 10 p
  | some (.v4 v4), none => str "tcp:" ++ ipv4Display v4
  | some (.v6 v6), none => str "tcp:[" ++ ipv6Display v6 ++ [']']
  | none, some p => str "tcp:" ++ natRepr 10 p
  | none, none => []

/-- The `None | Some("")` error of `Tcp::from_str`. -/
def tcpSyntaxErr (s : List Char) : AdbError :=
  .parse (.withDescription s (str "Tcp")
    (str "incomplete or invalid tcp syntax, expected `tcp:[host:[port]]`"))

/-- Last stage of `Tcp::from_str`: the bracket-stripped remainder as an IPv6
address. -/
def tcpV6 (value : List Char) : Option Ipv6Addr → Except AdbError Tcp
  | some v6 => .ok (Tcp.withIpv6 v6)
  | none => .error (.parse (.withSrc value (str "Ipv6Addr") .addrParse))

/-- Bracket stage of `Tcp::from_str`: without both brackets the input is
rejected. -/
def tcpBracket (value : List Char) : Option (List Char) → Except AdbError Tcp
  | none =>
    .error (.parse (.withDescription value (str "Tcp")
      (str "ipv6 address must be enclosed in square brackets")))
  | some v => tcpV6 value (ipv6FromStr v)

/-- `Ipv4Addr` stage of `Tcp::from_str`. -/
def tcpV4 (value : List Char) : Option Ipv4Addr → Except AdbError Tcp
  | some v4 => .ok (Tcp.withIpv4 v4)
  | none => tcpBracket value ((stripPre ['['] value).bind (stripSuf [']']))

/-- `SocketAddr` stage of `Tcp::from_str`. -/
def tcpSock (value : List Char) : Option SocketAddr → Except AdbError Tcp
  | some sa => .ok (Tcp.ofSockAddr sa)
  | none => tcpV4 value (ipv4FromStr value)

/-- `u16` (bare port) stage of `Tcp::from_str`. -/
def tcpU16 (value : List Char) : Option Nat → Except AdbError Tcp
  | some port => .ok (Tcp.withPort port)
  | none => tcpSock value (sockAddrFromStr value)

/-- Prefix stage of `Tcp::from_str`: no `tcp:` prefix or an empty remainder is
an error. -/
def tcpStart (s : List Char) : Option (List Char) → Except AdbError Tcp
  | some v => if v = [] then .error (tcpSyntaxErr s) else tcpU16 v (u16FromStr v)
  | none => .error (tcpSyntaxErr s)

/-- `Tcp`'s `FromStr` (`src/socket.rs` lines 258-291). -/
def Tcp.fromStr (s : List Char) : Except AdbError Tcp :=
  tcpStart s (stripPre (str "tcp:") s)

/-! ## The remaining socket families (`src/socket.rs`) -/

/-- The parsed-value stage of the `from_str!` macro. -/
def keyedVal {α : Type} (valName v : List Char) : Option α → Except AdbError α
  | some a => .ok a
  | none => .error (.parse (.withSrc v valName .intParse))

/-- The split stage of the `from_str!` macro of `src/socket.rs`: `key:value`
with a non-empty value parsed by the payload parser. -/
def keyedCont {α : Type} (key tyName valName : List Char)
    (parseVal : List Char → Option α) (s : List Char) :
    Option (List Char × List Char) → Except AdbError α
  | some kv =>
    if kv.1 = key then
      if kv.2 = [] then
        .error (.parse (.withDescription s tyName (str "missing " ++ valName)))
      else keyedVal valName kv.2 (parseVal kv.2)
    else
      .error (.parse (.withDescription s tyName
        (str "invalid syntax, expected `" ++ key ++ str ":<" ++ valName ++ str ">`")))
  | none =>
    .error (.parse (.withDescription s tyName
      (str "invalid syntax, expected `" ++ key ++ str ":<" ++ valName ++ str ">`")))

/-- The `from_str!` macro of `src/socket.rs`. -/
def keyedFromStr {α : Type} (key tyName valName : List Char)
    (parseVal : List Char → Option α) (s : List Char) : Except AdbError α :=
  keyedCont key tyName valName parseVal s (splitOnce ':' s)

/-- `LocalAbstract`'s `FromStr`. -/
def localAbstractFromStr : List Char → Except AdbError (List Char) :=
  keyedFromStr (str "localabstract") (str "LocalAbstract")
    (str "unix domain socket name (string)") some

/-- `LocalReserved`'s `FromStr`. -/
def localReservedFromStr : List Char → Except AdbError (List Char) :=
  keyedFromStr (str "localreserved") (str "LocalReserved")
    (str "unix domain socket name (string)") some

/-- `LocalFileSystem`'s `FromStr`. -/
def localFileSystemFromStr : List Char → Except AdbError (List Char) :=
  keyedFromStr (str "localfilesystem") (str "LocalFileSystem")
    (str "unix domain socket name (string)") some

/-- `Dev`'s `FromStr`. -/
def devFromStr : List Char → Except AdbError (List Char) :=
  keyedFromStr (str "dev") (str "Dev") (str "character device name (string)") some

/-- `DevRaw`'s `FromStr`. -/
def devRawFromStr : List Char → Except AdbError (List Char) :=
  keyedFromStr (str "dev-raw") (str "DevRaw") (str "character device name (string)") some

/-- `Jdwp`'s `FromStr`. -/
def jdwpFromStr : List Char → Except AdbError Nat :=
  keyedFromStr (str "jdwp") (str "Jdwp") (str "process pid (u32)") u32FromStr

/-- `AcceptFd`'s `FromStr`. -/
def acceptFdFromStr : List Char → Except AdbError Nat :=
  keyedFromStr (str "acceptfd") (str "AcceptFd") (str "fd (u32)") u32FromStr

/-- The `port` stage of `Vsock::from_str`. -/
def vsockPortStep (port : List Char) (c : Nat) : Option Nat → Except AdbError (Nat × Nat)
  | none => .error (.parse (.withSrc port (str "port (u32)") .intParse))
  | some p => .ok (c, p)

/-- The `cid` stage of `Vsock::from_str` (the `?` on the cid parse fires before
the port is parsed). -/
def vsockCidStep (cid port : List Char) : Option Nat → Except AdbError (Nat × Nat)
  | none => .error (.parse (.withSrc cid (str "cid (u32)") .intParse))
  | some c => vsockPortStep port c (u32FromStr port)

/-- The `cid`/`port` stage of `Vsock::from_str`. -/
def vsockNums (cid port : List Char) : Except AdbError (Nat × Nat) :=
  vsockCidStep cid port (u32FromStr cid)

/-- The inner split of `Vsock::from_str`. -/
def vsockInner (v : List Char) : Option (List Char × List Char) → Except AdbError (Nat × Nat)
  | some cp => vsockNums cp.1 cp.2
  | none => .error (.parse (.withDescription v (str "Vsock") (str "missing port")))

/-- The outer split of `Vsock::from_str`. -/
def vsockOuter (s : List Char) : Option (List Char × List Char) → Except AdbError (Nat × Nat)
  | some kv =>
    if kv.1 = str "vsock" then
      if kv.2 = [] then
        .error (.parse (.withDescription s (str "Vsock") (str "missing cid and port")))
      else vsockInner kv.2 (splitOnce ':' kv.2)
    else
      .error (.parse (.withDescription s (str "Vsock")
        (str "invalid syntax, expected `vsock:<cid>:<port>`")))
  | none =>
    .error (.parse (.withDescription s (str "Vsock")
      (str "invalid syntax, expected `vsock:<cid>:<port>`")))

/-- `Vsock`'s `FromStr` (`src/socket.rs` lines 400-432). -/
def vsockFromStr (s : List Char) : Except AdbError (Nat × Nat) :=
  vsockOuter s (splitOnce ':' s)

/-- `AdbSocketFamily`, payloads inlined. -/
inductive AdbSocketFamily
  | tcp (t : Tcp)
  | localAbstract (name : List Char)
  | localReserved (name : List Char)
  | localFileSystem (name : List Char)
  | dev (name : List Char)
  | devRaw (name : List Char)
  | jdwp (pid : Nat)
  | vsock (cid port : Nat)
  | acceptFd (fd : Nat)
deriving DecidableEq

/-- `AdbSocketFamily`'s `Display` (delegates to the per-family `Display`s,
including the `display!` macro instances). -/
def famDisplay : AdbSocketFamily → List Char
  | .tcp t => t.display
  | .localAbstract n => str "localabstract:" ++ n
  | .localReserved n => str "localreserved:" ++ n
  | .localFileSystem n => str "localfilesystem:" ++ n
  | .dev n => str "dev:" ++ n
  | .devRaw n => str "dev-raw:" ++ n
  | .jdwp p => str "jdwp:" ++ natRepr 10 p
  | .vsock c p => str "vsock:" ++ natRepr 10 c ++ [':'] ++ natRepr 10 p
  | .acceptFd f => str "acceptfd:" ++ natRepr 10 f

/-- One `if let Ok(..) = s.parse()` step of `AdbSocketFamily::from_str`: on
success wrap the family, otherwise discard the error and go on. -/
def famStep {α : Type} (f : α → AdbSocketFamily) (next : Except AdbError AdbSocketFamily) :
    Except AdbError α → Except AdbError AdbSocketFamily
  | .ok a => .ok (f a)
  | .error _ => next

/-- `AdbSocketFamily`'s `FromStr` (`src/socket.rs` lines 40-70): the families
are tried in order, sub-errors are discarded, and on total failure a single
error naming the full input is produced. -/
def famFromStr (s : List Char) : Except AdbError AdbSocketFamily :=
  famStep AdbSocketFamily.tcp
    (famStep AdbSocketFamily.localAbstract
      (famStep AdbSocketFamily.localReserved
        (famStep AdbSocketFamily.localFileSystem
          (famStep AdbSocketFamily.dev
            (famStep AdbSocketFamily.devRaw
              (famStep AdbSocketFamily.jdwp
                (famStep (fun cp : Nat × Nat => AdbSocketFamily.vsock cp.1 cp.2)
                  (famStep AdbSocketFamily.acceptFd
                    (.error (.parse (.withDescription s (str "AdbSocketFamily")
                      (str "invalid syntax"))))
                    (acceptFdFromStr s))
                  (vsockFromStr s))
                (jdwpFromStr s))
              (devRawFromStr s))
            (devFromStr s))
          (localFileSystemFromStr s))
        (localReservedFromStr s))
      (localAbstractFromStr s))
    (Tcp.fromStr s)

/-! ## Global options (`src/global_option.rs`) -/

/-- `AdbGlobalOption`. -/
inductive AdbGlobalOption
  | listenAll
  | usb
  | tcpIp
  | serial (s : List Char)
  | transportId (s : List Char)
  | host (ip : IpAddr)
  | port (p : Nat)
  | listen (t : Tcp)
  | oneDevice (s : List Char)
  | exitOnWriteError
deriving DecidableEq

/-- Rust's `char::is_whitespace` (the Unicode `White_Space` property). -/
def isRustWs (c : Char) : Bool :=
  (c = ' ' : Bool) ∨ (Char.ofNat 9 ≤ c ∧ c ≤ Char.ofNat 13)
  ∨ c = Char.ofNat 133 ∨ c = Char.ofNat 160 ∨ c = Char.ofNat 5760
  ∨ (Char.ofNat 8192 ≤ c ∧ c ≤ Char.ofNat 8202)
  ∨ c = Char.ofNat 8232 ∨ c = Char.ofNat 8233 ∨ c = Char.ofNat 8239
  ∨ c = Char.ofNat 8287 ∨ c = Char.ofNat 12288

/-- `str::trim` under `char::is_whitespace`. -/
def trimList (s : List Char) : List Char :=
  ((s.dropWhile fun c => isRustWs c).reverse.dropWhile fun c => isRustWs c).reverse

/-- `str::split_once(char::is_whitespace)`. -/
def splitOnceWs : List Char → Option (List Char × List Char)
  | [] => none
  | x :: xs =>
    if isRustWs x then some ([], xs)
    else
      match splitOnceWs xs with
      | some (l, r) => some (x :: l, r)
      | none => none

/-- The `-H` value stage of `from_str_helper::<false>`. -/
def globHost (val : List Char) : Option IpAddr → Except AdbError AdbGlobalOption
  | some ip => .ok (.host ip)
  | none => .error (.parse (.withSrc val (str "IpAddr") .addrParse))

/-- The `-P` value stage of `from_str_helper`. -/
def globPort (val : List Char) : Option Nat → Except AdbError AdbGlobalOption
  | some p => .ok (.port p)
  | none => .error (.parse (.withSrc val (str "port (u16)") .intParse))

/-- The `-L` value stage of `from_str_helper::<false>` (`val.parse().map(Listen)`
keeps the `Tcp` error as is). -/
def globListen : Except AdbError Tcp → Except AdbError AdbGlobalOption
  | .ok t => .ok (.listen t)
  | .error e => .error e

/-- The flag-dispatch stage of `from_str_helper` on the `(opt, val)` split. -/
def globDispatch (opt val : List Char) : Except AdbError AdbGlobalOption :=
  if opt = str "-s" then .ok (.serial val)
  else if opt = str "-t" then .ok (.transportId val)
  else if opt = str "-H" then globHost val (ipAddrFromStr val)
  else if opt = str "-P" then globPort val (u16FromStr val)
  else if opt = str "-L" then globListen (Tcp.fromStr val)
  else if opt = str "--one-device" then .ok (.oneDevice val)
  else .error (.parse (.withDescription opt (str "GlobalOption") (str "unknown option")))

/-- The split stage of `from_str_helper`: no whitespace means `MissingValue`;
otherwise the value is trimmed and dispatched. -/
def globSplit : Option (List Char × List Char) → Except AdbError AdbGlobalOption
  | none =>
    .error (.parse (.withDescription (str "no value") (str "&str") (str "missing value")))
  | some p => globDispatch p.1 (trimList p.2)

/-- `from_str_helper::<false>` on the already-trimmed input. -/
def AdbGlobalOption.fromTrimmed (trimmed : List Char) : Except AdbError AdbGlobalOption :=
  if trimmed = str "-a" then .ok .listenAll
  else if trimmed = str "-d" then .ok .usb
  else if trimmed = str "-e" then .ok .tcpIp
  else if trimmed = str "--exit-on-write-error" then .ok .exitOnWriteError
  else globSplit (splitOnceWs trimmed)

/-- `AdbGlobalOption::from_str_helper::<false>`, the non-resolving parser
behind `FromStr` (`src/global_option.rs` lines 102-157): trim, recognise the
four valueless flags, else split at the first whitespace character. -/
def AdbGlobalOption.fromStr (s : List Char) : Except AdbError AdbGlobalOption :=
  AdbGlobalOption.fromTrimmed (trimList s)

/-- `AdbGlobalOption`'s `Display`. -/
def AdbGlobalOption.display : AdbGlobalOption → List Char
  | .listenAll => str "-a"
  | .usb => str "-d"
  | .tcpIp => str "-e"
  | .serial s => str "-s " ++ s
  | .transportId s => str "-t " ++ s
  | .host ip => str "-H " ++ ipAddrDisplay ip
  | .port p => str "-P " ++ natRepr 10 p
  | .listen t => str "-L " ++ t.display
  | .oneDevice s => str "--one-device " ++ s
  | .exitOnWriteError => str "--exit-on-write-error"

/-! ## The builder's global-option set (`src/command/mod.rs`) -/

/-- The discriminant of an `AdbGlobalOption` (its "kind", ignoring payload). -/
inductive OptionKind
  | listenAll
  | usb
  | tcpIp
  | serial
  | transportId
  | host
  | port
  | listen
  | oneDevice
  | exitOnWriteError
deriving DecidableEq

/-- The kind of an option. -/
def AdbGlobalOption.kind : AdbGlobalOption → OptionKind
  | .listenAll => .listenAll
  | .usb => .usb
  | .tcpIp => .tcpIp
  | .serial _ => .serial
  | .transportId _ => .transportId
  | .host _ => .host
  | .port _ => .port
  | .listen _ => .listen
  | .oneDevice _ => .oneDevice
  | .exitOnWriteError => .exitOnWriteError

/-- `HashSet::insert`: a value equal to a member leaves the set unchanged. The
set is modelled as a duplicate-free list (iteration order is irrelevant to the
claims below). -/
def hsInsert (x : AdbGlobalOption) (l : List AdbGlobalOption) : List AdbGlobalOption :=
  if x ∈ l then l else l ++ [x]

/-- `AdbCommandBuilder::add_global_option`: `retain(|o| !matches(o))` then
insert. -/
def addGlobalOption (l : List AdbGlobalOption) (opt : AdbGlobalOption)
    (pred : AdbGlobalOption → Bool) : List AdbGlobalOption :=
  hsInsert opt (l.filter fun o => !pred o)

/-- `AdbCommandBuilder::add_global_option_unchecked`. -/
def addGlobalOptionUnchecked (l : List AdbGlobalOption) (opt : AdbGlobalOption) :
    List AdbGlobalOption :=
  hsInsert opt l

/-- The global-option builder methods of `src/global_option.rs` lines 244-341,
one constructor per method. -/
inductive BuilderOp
  | listenAll
  | usb
  | tcpIp
  | serial (s : List Char)
  | transportId (s : List Char)
  | host (ip : IpAddr)
  | port (p : Nat)
  | listen (t : Tcp)
  | oneDevice (s : List Char)
  | exitOnWriteError

/-- `matches!(opt, AdbGlobalOption::Serial(_))`. -/
def isSerialOpt : AdbGlobalOption → Bool
  | .serial _ => true
  | _ => false

/-- `matches!(opt, AdbGlobalOption::TransportId(_))`. -/
def isTransportIdOpt : AdbGlobalOption → Bool
  | .transportId _ => true
  | _ => false

/-- `matches!(opt, AdbGlobalOption::Host(_))`. -/
def isHostOpt : AdbGlobalOption → Bool
  | .host _ => true
  | _ => false

/-- `matches!(opt, AdbGlobalOption::Port(_))`. -/
def isPortOpt : AdbGlobalOption → Bool
  | .port _ => true
  | _ => false

/-- `matches!(opt, AdbGlobalOption::Listen(_))`. -/
def isListenOpt : AdbGlobalOption → Bool
  | .listen _ => true
  | _ => false

/-- `matches!(opt, AdbGlobalOption::OneDevice(_))`. -/
def isOneDeviceOpt : AdbGlobalOption → Bool
  | .oneDevice _ => true
  | _ => false

/-- One builder method applied to the option set: the valueless flags use the
unchecked insert, the payload-carrying ones the replace-then-insert
(`host_resolved` / `listen_resolved` perform the same checked insert with the
resolved payload). -/
def applyOp (l : List AdbGlobalOption) : BuilderOp → List AdbGlobalOption
  | .listenAll => addGlobalOptionUnchecked l .listenAll
  | .usb => addGlobalOptionUnchecked l .usb
  | .tcpIp => addGlobalOptionUnchecked l .tcpIp
  | .serial s => addGlobalOption l (.serial s) isSerialOpt
  | .transportId s => addGlobalOption l (.transportId s) isTransportIdOpt
  | .host ip => addGlobalOption l (.host ip) isHostOpt
  | .port p => addGlobalOption l (.port p) isPortOpt
  | .listen t => addGlobalOption l (.listen t) isListenOpt
  | .oneDevice s => addGlobalOption l (.oneDevice s) isOneDeviceOpt
  | .exitOnWriteError => addGlobalOptionUnchecked l .exitOnWriteError

/-- A builder starts with no global options (`AdbCommandBuilder::new` /
`with_working_directory`); a sequence of methods is applied in order. -/
def applyOps (ops : List BuilderOp) : List AdbGlobalOption :=
  ops.foldl applyOp []

/-- Number of entries of kind `k` in the option set. -/
def kindCount (k : OptionKind) (l : List AdbGlobalOption) : Nat :=
  l.countP fun o => o.kind = k

/-- The "at most one option per kind" invariant. -/
def AtMostOnePerKind (l : List AdbGlobalOption) : Prop :=
  ∀ k, kindCount k l ≤ 1

/-! ## Host resolution (`Tcp::from_host` / `Tcp::resolve`) -/

/-- `SocketAddr::is_ipv4`. -/
def SocketAddr.isV4 : SocketAddr → Bool
  | .v4 _ _ => true
  | _ => false

/-- `addrs.find(is_ipv4).or(first)` of `Tcp::resolve`. -/
def findV4Or (first : SocketAddr) : Option SocketAddr → Except AdbError Tcp
  | some a => .ok (Tcp.ofSockAddr a)
  | none => .ok (Tcp.ofSockAddr first)

/-- The address-picking stage of `Tcp::resolve`: no address is an error, a
first IPv4 address wins, otherwise the first IPv4 among the rest, else the
first address. -/
def resolvePick (host : List Char) : List SocketAddr → Except AdbError Tcp
  | [] =>
    .error (.parse (.withDescription host (str "SocketAddr")
      (str "no socket addresses found")))
  | .v4 ip p :: _ => .ok (Tcp.ofSockAddr (.v4 ip p))
  | first :: rest => findV4Or first (rest.find? SocketAddr.isV4)

/-- The resolver-result stage of `Tcp::resolve`. -/
def resolveRes (host : List Char) : Except (List Char) (List SocketAddr) → Except AdbError Tcp
  | .error e =>
    .error (.parse (.withSrc host (str "std::vec::IntoIter<SocketAddr>") (.ioErr e)))
  | .ok addrs => resolvePick host addrs

/-- `Tcp::resolve`, with the operating-system resolver (`to_socket_addrs`)
passed as an explicit function from the queried string to either an I/O error
message or the list of addresses its iterator yields. -/
def Tcp.resolve (resolver : List Char → Except (List Char) (List SocketAddr))
    (host : List Char) : Except AdbError Tcp :=
  resolveRes host (resolver host)

/-- The `":0"` retry of `Tcp::from_host`: on success keep only the resolved
address (`with_ip(tcp.ip.unwrap())`, total because `resolve` only builds values
with an address present); on failure return the first resolution error `e`. -/
def fromHostRetry (e : AdbError) : Except AdbError Tcp → Except AdbError Tcp
  | .ok t => .ok (Tcp.withIp (t.ip.getD (.v4 ⟨0, 0, 0, 0⟩)))
  | .error _ => .error e

/-- The first `or_else` of `Tcp::from_host`: on resolution failure retry with
`":0"` appended. -/
def fromHostStep2 (resolver : List Char → Except (List Char) (List SocketAddr))
    (host : List Char) : Except AdbError Tcp → Except AdbError Tcp
  | .ok t => .ok t
  | .error e => fromHostRetry e (Tcp.resolve resolver (host ++ [':', '0']))

/-- The parse stage of `Tcp::from_host`. -/
def fromHostStep1 (resolver : List Char → Except (List Char) (List SocketAddr))
    (host : List Char) : Except AdbError Tcp → Except AdbError Tcp
  | .ok t => .ok t
  | .error _ => fromHostStep2 resolver host (Tcp.resolve resolver host)

/-- `Tcp::from_host`: parse as a literal, else resolve, else retry the
resolution with `":0"` appended. -/
def Tcp.fromHost (resolver : List Char → Except (List Char) (List SocketAddr))
    (host : List Char) : Except AdbError Tcp :=
  fromHostStep1 resolver host (Tcp.fromStr host)

/-! ## Round-trip lemmas: numbers -/

/-- Every character of `l` is the canonical character of a digit below `b`. -/
def DigitChars (b : Nat) (l : List Char) : Prop :=
  ∀ c ∈ l, ∃ d, d < b ∧ c = digitChar d

/-- The head of `s` (if any) is not a digit of the given radix. -/
def headNotDigit (radix : Nat) (s : List Char) : Prop :=
  ∀ c, s.head? = some c → charToDigit radix c = none

theorem digitChar_ne_char (d : Nat) (hd : d < 36) (c : Char) (hc : rawDigit c = none) :
    digitChar d ≠ c := by
  intro h
  have := rawDigit_digitChar d hd
  rw [h, hc] at this
  exact Option.noConfusion this

theorem charToDigit_none_of_raw (radix : Nat) (c : Char) (hc : rawDigit c = none) :
    charToDigit radix c = none := by
  unfold charToDigit
  rw [hc]

theorem foldDigits_le (b : Nat) (hb : 1 ≤ b) :
    ∀ (l : List Char) (x : Nat), x ≤ foldDigits b x l := by
  intro l
  induction l with
  | nil => intro x; exact Nat.le_refl x
  | cons c t ih =>
    intro x
    calc x ≤ x * b := Nat.le_mul_of_pos_right x hb
    _ ≤ x * b + (rawDigit c).getD 0 := Nat.le_add_right _ _
    _ ≤ foldDigits b (x * b + (rawDigit c).getD 0) t := ih _

theorem readNumberLoop_digits (radix bound : Nat) (hr : 2 ≤ radix) (hr36 : radix ≤ 36)
    (maxD : Option Nat) :
    ∀ (ds : List Char) (rest : List Char) (acc cnt : Nat),
      DigitChars radix ds →
      headNotDigit radix rest →
      foldDigits radix acc ds ≤ bound →
      (∀ m, maxD = some m → cnt + ds.length ≤ m) →
      readNumberLoop radix bound maxD acc cnt (ds ++ rest) =
        some (foldDigits radix acc ds, cnt + ds.length, rest) := by
  intro ds
  induction ds with
  | nil =>
    intro rest acc cnt _ hrest _ _
    match rest with
    | [] => rfl
    | c :: r =>
      show readNumberLoop radix bound maxD acc cnt (c :: r) = _
      unfold readNumberLoop
      rw [hrest c rfl]
      simp [foldDigits]
  | cons c ds' ih =>
    intro rest acc cnt hdig hrest hbound hmax
    obtain ⟨d, hd, rfl⟩ := hdig _ (List.mem_cons_self c ds')
    have hfold : foldDigits radix acc (digitChar d :: ds') =
        foldDigits radix (acc * radix + d) ds' := by
      simp [foldDigits, rawDigit_digitChar d (by omega)]
    rw [hfold] at hbound
    have hle : acc * radix + d ≤ bound :=
      Nat.le_trans (foldDigits_le radix (by omega) ds' _) hbound
    show readNumberLoop radix bound maxD acc cnt (digitChar d :: (ds' ++ rest)) = _
    unfold readNumberLoop
    rw [charToDigit_digitChar radix d hd hr36]
    simp only
    have hexc : maxExceeded maxD (cnt + 1) = false := by
      cases maxD with
      | none => rfl
      | some m =>
        have := hmax m rfl
        simp only [List.length_cons] at this
        simp [maxExceeded]
        omega
    have htail : DigitChars radix ds' := fun x hx => hdig x (List.mem_cons_of_mem _ hx)
    rw [if_neg (by omega), if_neg (by omega), hexc]
    simp only [Bool.false_eq_true, if_false]
    rw [ih rest (acc * radix + d) (cnt + 1) htail hrest hbound
      (by intro m hm; have := hmax m hm; simp only [List.length_cons] at this; omega)]
    rw [hfold]
    simp only [Option.some.injEq, Prod.mk.injEq, List.length_cons]
    refine ⟨trivial, by omega, trivial⟩

theorem readNumber_natRepr (radix bound : Nat) (hr : 2 ≤ radix) (hr36 : radix ≤ 36)
    (maxD : Option Nat) (azp : Bool) (n : Nat) (rest : List Char)
    (hn : n ≤ bound)
    (hlen : ∀ m, maxD = some m → (natRepr radix n).length ≤ m)
    (hrest : headNotDigit radix rest) :
    readNumber radix maxD azp bound (natRepr radix n ++ rest) = some (n, rest) := by
  unfold readNumber
  have hfold : foldDigits radix 0 (natRepr radix n) = n := foldDigits_natRepr radix hr hr36 n
  rw [readNumberLoop_digits radix bound hr hr36 maxD (natRepr radix n) rest 0 0
    (natRepr_mem radix hr n) hrest (by rw [hfold]; exact hn)
    (by intro m hm; have := hlen m hm; omega)]
  rw [Option.some_bind]
  unfold readNumberPost
  simp only
  rw [hfold]
  have hne : natRepr radix n ≠ [] := natRepr_ne_nil radix hr n
  have hlenpos : 1 ≤ (natRepr radix n).length := by
    cases h : natRepr radix n with
    | nil => exact absurd h hne
    | cons a l => simp
  rw [if_neg (by omega)]
  by_cases hz : azp = false
  · by_cases hn0 : n = 0
    · have : natRepr radix n = ['0'] := by rw [hn0]; rfl
      rw [if_neg]
      rintro ⟨-, -, hcnt⟩
      rw [this] at hcnt
      simp at hcnt
    · have hhead : (natRepr radix n).head? ≠ some '0' := natRepr_head_ne_zero radix hr hr36 n hn0
      rw [if_neg]
      rintro ⟨-, hh, -⟩
      rw [List.head?_append] at hh
      cases hcase : (natRepr radix n).head? with
      | none =>
        cases h : natRepr radix n with
        | nil => exact hne h
        | cons a l => rw [h] at hcase; simp at hcase
      | some a =>
        rw [hcase] at hh
        simp at hh
        rw [hh] at hcase
        exact hhead hcase
  · rw [if_neg]
    rintro ⟨h1, -, -⟩
    exact hz h1

theorem readNumberLoop_rest (radix bound : Nat) (maxD : Option Nat) :
    ∀ (s : List Char) (acc cnt v cn : Nat) (rest : List Char),
      readNumberLoop radix bound maxD acc cnt s = some (v, cn, rest) →
      rest = s.dropWhile fun ch => (charToDigit radix ch).isSome := by
  intro s
  induction s with
  | nil =>
    intro acc cnt v cn rest h
    unfold readNumberLoop at h
    simp at h
    simp [h]
  | cons c t ih =>
    intro acc cnt v cn rest h
    unfold readNumberLoop at h
    cases hc : charToDigit radix c with
    | none =>
      rw [hc] at h
      simp at h
      simp [List.dropWhile, hc, h]
    | some d =>
      rw [hc] at h
      simp only at h
      by_cases h1 : bound < acc * radix
      · rw [if_pos h1] at h; exact Option.noConfusion h
      rw [if_neg h1] at h
      by_cases h2 : bound < acc * radix + d
      · rw [if_pos h2] at h; exact Option.noConfusion h
      rw [if_neg h2] at h
      have hdw : (List.dropWhile (fun ch => (charToDigit radix ch).isSome) (c :: t)) =
          List.dropWhile (fun ch => (charToDigit radix ch).isSome) t := by
        simp [List.dropWhile, hc]
      rw [hdw]
      by_cases h3 : maxExceeded maxD (cnt + 1) = true
      · rw [if_pos h3] at h; exact Option.noConfusion h
      · rw [if_neg h3] at h; exact ih _ _ _ _ _ h

theorem readNumber_rest (radix bound : Nat) (maxD : Option Nat) (azp : Bool)
    (s : List Char) (v : Nat) (rest : List Char)
    (h : readNumber radix maxD azp bound s = some (v, rest)) :
    rest = s.dropWhile fun ch => (charToDigit radix ch).isSome := by
  unfold readNumber at h
  cases hloop : readNumberLoop radix bound maxD 0 0 s with
  | none => rw [hloop] at h; exact Option.noConfusion h
  | some r =>
    obtain ⟨v', cn, rest'⟩ := r
    rw [hloop, Option.some_bind] at h
    unfold readNumberPost at h
    by_cases h1 : cn = 0
    · rw [if_pos h1] at h; exact Option.noConfusion h
    rw [if_neg h1] at h
    by_cases h2 : azp = false ∧ s.head? = some '0' ∧ 1 < cn
    · rw [if_pos h2] at h; exact Option.noConfusion h
    · rw [if_neg h2] at h
      have : v' = v ∧ rest' = rest := by
        have := Option.some.inj h
        exact ⟨congrArg Prod.fst this, congrArg Prod.snd this⟩
      rw [← this.2]
      exact readNumberLoop_rest radix bound maxD s 0 0 v' cn rest' hloop

/-! ## Round-trip lemmas: integer `FromStr` -/

theorem parseUIntDigits_digits (bound : Nat) :
    ∀ (ds : List Char) (acc : Nat), DigitChars 10 ds → foldDigits 10 acc ds ≤ bound →
      parseUIntDigits bound acc ds = some (foldDigits 10 acc ds) := by
  intro ds
  induction ds with
  | nil => intro acc _ _; rfl
  | cons c ds' ih =>
    intro acc hdig hbound
    obtain ⟨d, hd, rfl⟩ := hdig _ (List.mem_cons_self c ds')
    have hfold : foldDigits 10 acc (digitChar d :: ds') =
        foldDigits 10 (acc * 10 + d) ds' := by
      simp [foldDigits, rawDigit_digitChar d (by omega)]
    rw [hfold] at hbound ⊢
    have hle : acc * 10 + d ≤ bound :=
      Nat.le_trans (foldDigits_le 10 (by omega) ds' _) hbound
    unfold parseUIntDigits
    rw [charToDigit_digitChar 10 d hd (by omega)]
    simp only
    rw [if_neg (by omega), if_neg (by omega)]
    exact ih _ (fun x hx => hdig x (List.mem_cons_of_mem _ hx)) hbound

theorem parseUIntDigits_none (bound : Nat) :
    ∀ (ds : List Char) (acc : Nat), (∃ c ∈ ds, charToDigit 10 c = none) →
      parseUIntDigits bound acc ds = none := by
  intro ds
  induction ds with
  | nil => intro acc h; obtain ⟨c, hc, -⟩ := h; simp at hc
  | cons c ds' ih =>
    intro acc h
    obtain ⟨x, hx, hxd⟩ := h
    unfold parseUIntDigits
    rcases List.mem_cons.1 hx with rfl | hx'
    · rw [hxd]
    · cases hc : charToDigit 10 c with
      | none => rfl
      | some d =>
        simp only
        by_cases h1 : bound < acc * 10
        · rw [if_pos h1]
        · rw [if_neg h1]
          by_cases h2 : bound < acc * 10 + d
          · rw [if_pos h2]
          · rw [if_neg h2]
            exact ih _ ⟨x, hx', hxd⟩

theorem uintFromStr_natRepr (bound n : Nat) (hn : n ≤ bound) :
    uintFromStr bound (natRepr 10 n) = some n := by
  obtain ⟨c, cs, heq⟩ := List.exists_cons_of_ne_nil (natRepr_ne_nil 10 (by omega) n)
  obtain ⟨d, hd, hc⟩ := natRepr_mem 10 (by omega) n c (by rw [heq]; exact List.mem_cons_self c cs)
  have hfold : foldDigits 10 0 (natRepr 10 n) = n := foldDigits_natRepr 10 (by omega) (by omega) n
  rw [heq]
  simp only [uintFromStr]
  rw [if_neg (by rw [hc]; exact digitChar_ne_char d (by omega) '+' (by decide))]
  rw [← heq, parseUIntDigits_digits bound (natRepr 10 n) 0 (natRepr_mem 10 (by omega) n)
    (by rw [hfold]; exact hn), hfold]

theorem uintFromStr_none (bound : Nat) (s : List Char)
    (h : ∃ c ∈ s, charToDigit 10 c = none ∧ c ≠ '+') :
    uintFromStr bound s = none := by
  obtain ⟨x, hx, hxd, hxp⟩ := h
  match s, hx with
  | c :: rest, hx =>
    simp only [uintFromStr]
    by_cases hc : c = '+'
    · rw [if_pos hc]
      have hx' : x ∈ rest := by
        rcases List.mem_cons.1 hx with rfl | hx'
        · exact absurd hc hxp
        · exact hx'
      match rest, hx' with
      | r :: rest', hx'' => exact parseUIntDigits_none bound _ 0 ⟨x, hx'', hxd⟩
    · rw [if_neg hc]
      exact parseUIntDigits_none bound _ 0 ⟨x, hx, hxd⟩

/-! ## Round-trip lemmas: IPv4 -/

theorem readNumber_rest_head (radix bound : Nat) (maxD : Option Nat) (azp : Bool)
    (s : List Char) (v : Nat) (rest : List Char)
    (h : readNumber radix maxD azp bound s = some (v, rest))
    (hhd : ((s.dropWhile fun ch => (charToDigit radix ch).isSome).head?) ≠ some '.') :
    rest.head? ≠ some '.' := by
  rw [readNumber_rest radix bound maxD azp s v rest h]
  exact hhd

theorem readOctet_zero (s : List Char) :
    readOctet 0 s = readNumber 10 (some 3) false 255 s := by
  unfold readOctet readSep
  rw [if_pos rfl]

theorem readOctet_succ_none (i : Nat) (hi : i ≠ 0) (s : List Char)
    (h : s.head? ≠ some '.') : readOctet i s = none := by
  unfold readOctet readSep
  rw [if_neg hi]
  match s, h with
  | [], _ => rfl
  | c :: rest, hne =>
    have hc : ¬(c = '.') := fun hc => hne (by rw [hc]; rfl)
    simp only [readGivenChar]
    rw [if_neg hc]
    rfl

theorem readIpv4_none (s : List Char)
    (h : ((s.dropWhile fun ch => (charToDigit 10 ch).isSome).head?) ≠ some '.') :
    readIpv4 s = none := by
  unfold readIpv4
  rw [readOctet_zero]
  cases h1 : readNumber 10 (some 3) false 255 s with
  | none => rfl
  | some r =>
    obtain ⟨v, rest⟩ := r
    have hhd : rest.head? ≠ some '.' := readNumber_rest_head 10 255 (some 3) false s v rest h1 h
    rw [Option.some_bind]
    simp only [readOctet_succ_none 1 (by omega) rest hhd, Option.none_bind]

/-- The canonical decimal digits of an octet at position `0`. -/
theorem readOctet_natRepr (o : Nat) (ho : o < 256) (rest : List Char)
    (hrest : headNotDigit 10 rest) :
    readOctet 0 (natRepr 10 o ++ rest) = some (o, rest) := by
  rw [readOctet_zero]
  exact readNumber_natRepr 10 255 (by omega) (by omega) (some 3) false o rest (by omega)
    (by intro m hm; cases hm
        exact natRepr_length_le 10 (by omega) 3 o (by omega) (by omega)) hrest

/-- A dotted octet (`'.'` then canonical digits). -/
theorem readOctet_dot (i o : Nat) (hi : i ≠ 0) (ho : o < 256) (rest : List Char)
    (hrest : headNotDigit 10 rest) :
    readOctet i ('.' :: (natRepr 10 o ++ rest)) = some (o, rest) := by
  unfold readOctet readSep
  rw [if_neg hi]
  simp only [readGivenChar, if_pos rfl, Option.some_bind]
  exact readNumber_natRepr 10 255 (by omega) (by omega) (some 3) false o rest (by omega)
    (by intro m hm; cases hm
        exact natRepr_length_le 10 (by omega) 3 o (by omega) (by omega)) hrest

theorem headNotDigit_dot (t : List Char) : headNotDigit 10 ('.' :: t) := by
  intro c hc
  simp at hc
  rw [← hc]
  decide

theorem readIpv4_display (a : Ipv4Addr) (h1 : a.o1 < 256) (h2 : a.o2 < 256)
    (h3 : a.o3 < 256) (h4 : a.o4 < 256) (rest : List Char)
    (hrest : headNotDigit 10 rest) :
    readIpv4 (ipv4Display a ++ rest) = some (a, rest) := by
  unfold ipv4Display
  have e1 : (natRepr 10 a.o1 ++ ['.'] ++ natRepr 10 a.o2 ++ ['.'] ++ natRepr 10 a.o3 ++ ['.'] ++
      natRepr 10 a.o4) ++ rest =
      natRepr 10 a.o1 ++ ('.' :: (natRepr 10 a.o2 ++ ('.' :: (natRepr 10 a.o3 ++
        ('.' :: (natRepr 10 a.o4 ++ rest)))))) := by
    simp
  rw [e1]
  unfold readIpv4
  rw [readOctet_natRepr a.o1 h1 _ (headNotDigit_dot _), Option.some_bind]
  simp only
  rw [readOctet_dot 1 a.o2 (by omega) h2 _ (headNotDigit_dot _), Option.some_bind]
  simp only
  rw [readOctet_dot 2 a.o3 (by omega) h3 _ (headNotDigit_dot _), Option.some_bind]
  simp only
  rw [readOctet_dot 3 a.o4 (by omega) h4 _ hrest, Option.some_bind]

/-! ## Round-trip lemmas: IPv6 groups -/

/-- What may legitimately follow a full IPv6 textual address in the inputs the
claims need: nothing, or a closing bracket. -/
def endOk (rest : List Char) : Prop :=
  rest = [] ∨ ∃ r, rest = ']' :: r

/-- What may follow a (possibly empty) run of groups: nothing, a closing
bracket, or the `::` separator. -/
def GroupStop (rest : List Char) : Prop :=
  rest = [] ∨ (∃ r, rest = ']' :: r) ∨ (∃ r, rest = ':' :: ':' :: r)

theorem groupStop_of_endOk (rest : List Char) (h : endOk rest) : GroupStop rest := by
  rcases h with h | h
  · exact Or.inl h
  · exact Or.inr (Or.inl h)

theorem readNumber_none_head (radix bound : Nat) (maxD : Option Nat) (azp : Bool)
    (s : List Char) (h : headNotDigit radix s) :
    readNumber radix maxD azp bound s = none := by
  unfold readNumber
  match s, h with
  | [], _ =>
    show (readNumberLoop radix bound maxD 0 0 []).bind _ = none
    unfold readNumberLoop
    rw [Option.some_bind]
    unfold readNumberPost
    simp
  | c :: r, h =>
    show (readNumberLoop radix bound maxD 0 0 (c :: r)).bind _ = none
    unfold readNumberLoop
    rw [h c rfl, Option.some_bind]
    unfold readNumberPost
    simp

theorem readHexGroup (g : Nat) (hg : g < 65536) (rest : List Char)
    (hrest : headNotDigit 16 rest) :
    readNumber 16 (some 4) true 65535 (natRepr 16 g ++ rest) = some (g, rest) :=
  readNumber_natRepr 16 65535 (by omega) (by omega) (some 4) true g rest (by omega)
    (fun m hm => by
      cases hm
      exact natRepr_length_le 16 (by omega) 4 g (by omega) (by omega)) hrest

theorem dropWhile_hex_head (xs ys : List Char) (hxs : DigitChars 16 xs)
    (hys : ((ys.dropWhile fun ch => (charToDigit 10 ch).isSome).head?) ≠ some '.') :
    (((xs ++ ys).dropWhile fun ch => (charToDigit 10 ch).isSome).head?) ≠ some '.' := by
  induction xs with
  | nil => exact hys
  | cons c xs' ih =>
    obtain ⟨d, hd, rfl⟩ := hxs _ (List.mem_cons_self c xs')
    have hne : digitChar d ≠ '.' := digitChar_ne_char d (by omega) '.' (by decide)
    rw [List.cons_append, List.dropWhile_cons]
    by_cases hdec : (charToDigit 10 (digitChar d)).isSome = true
    · rw [if_pos hdec]
      exact ih fun x hx => hxs x (List.mem_cons_of_mem _ hx)
    · rw [if_neg hdec]
      simp only [List.head?_cons]
      intro hcon
      exact hne (Option.some.inj hcon)

theorem dropWhile_ndhead (ys : List Char) (hnd : headNotDigit 10 ys)
    (hdot : ys.head? ≠ some '.') :
    ((ys.dropWhile fun ch => (charToDigit 10 ch).isSome).head?) ≠ some '.' := by
  match ys with
  | [] => simp
  | c :: r =>
    have hc := hnd c rfl
    simp only [List.dropWhile_cons, hc, Option.isSome_none, Bool.false_eq_true, if_false]
    exact hdot

theorem groupStop_headNotDigit (radix : Nat) (rest : List Char) (h : GroupStop rest)
    (hcb : charToDigit radix ']' = none) (hcc : charToDigit radix ':' = none) :
    headNotDigit radix rest := by
  rcases h with rfl | ⟨r, rfl⟩ | ⟨r, rfl⟩
  · intro c hc; simp at hc
  · intro c hc
    simp at hc
    rw [← hc]
    exact hcb
  · intro c hc
    simp at hc
    rw [← hc]
    exact hcc

theorem groupStop_dropWhile (rest : List Char) (h : GroupStop rest) :
    ((rest.dropWhile fun ch => (charToDigit 10 ch).isSome).head?) ≠ some '.' := by
  refine dropWhile_ndhead rest (groupStop_headNotDigit 10 rest h (by decide) (by decide)) ?_
  rcases h with rfl | ⟨r, rfl⟩ | ⟨r, rfl⟩ <;> simp

theorem readIpv4_groupStop (rest : List Char) (h : GroupStop rest) : readIpv4 rest = none :=
  readIpv4_none rest (groupStop_dropWhile rest h)

theorem readIpv4_colon (r : List Char) : readIpv4 (':' :: r) = none :=
  readIpv4_none _ (dropWhile_ndhead _
    (by intro c hc; simp at hc; rw [← hc]; decide) (by simp))

theorem readGivenChar_hit (c : Char) (t : List Char) : readGivenChar c (c :: t) = some t := by
  simp [readGivenChar]

theorem readSep_stop_v4 (i : Nat) (rest : List Char) (h : GroupStop rest) :
    readSep ':' i readIpv4 rest = none := by
  unfold readSep
  by_cases hi : i = 0
  · rw [if_pos hi]
    exact readIpv4_groupStop rest h
  · rw [if_neg hi]
    rcases h with rfl | ⟨r, rfl⟩ | ⟨r, rfl⟩
    · rfl
    · have : readGivenChar ':' (']' :: r) = none := by simp [readGivenChar]
      rw [this]
      rfl
    · rw [readGivenChar_hit ':' (':' :: r), Option.some_bind]
      exact readIpv4_colon r

theorem readNumber16_colon (r : List Char) :
    readNumber 16 (some 4) true 65535 (':' :: r) = none :=
  readNumber_none_head 16 65535 (some 4) true (':' :: r)
    (by intro c hc; simp at hc; rw [← hc]; decide)

theorem readSep_stop_hex (i : Nat) (rest : List Char) (h : GroupStop rest) :
    readSep ':' i (readNumber 16 (some 4) true 65535) rest = none := by
  unfold readSep
  by_cases hi : i = 0
  · rw [if_pos hi]
    exact readNumber_none_head 16 65535 (some 4) true rest
      (groupStop_headNotDigit 16 rest h (by decide) (by decide))
  · rw [if_neg hi]
    rcases h with rfl | ⟨r, rfl⟩ | ⟨r, rfl⟩
    · rfl
    · have : readGivenChar ':' (']' :: r) = none := by simp [readGivenChar]
      rw [this]
      rfl
    · rw [readGivenChar_hit ':' (':' :: r), Option.some_bind]
      exact readNumber16_colon r

theorem readGroupsAux_stop (rem i : Nat) (rest : List Char) (h : GroupStop rest) :
    readGroupsAux rem i rest = ([], false, rest) := by
  cases rem with
  | zero => rfl
  | succ r =>
    simp only [readGroupsAux]
    have hv4 : readSep ':' i readIpv4 rest = none := readSep_stop_v4 i rest h
    have hhex : readSep ':' i (readNumber 16 (some 4) true 65535) rest = none :=
      readSep_stop_hex i rest h
    by_cases hr : 1 ≤ r
    · rw [if_pos hr, hv4, hhex]
      rfl
    · rw [if_neg hr, hhex]
      rfl

/-- Reading past the glue prefix: the separator is present exactly when the
group index is positive. -/
theorem readSep_glue {α : Type} (i : Nat) (inner : List Char → Option (α × List Char))
    (t : List Char) :
    readSep ':' i inner ((if i = 0 then [] else [':']) ++ t) = inner t := by
  by_cases hi : i = 0
  · rw [if_pos hi]
    unfold readSep
    rw [if_pos hi, List.nil_append]
  · rw [if_neg hi]
    unfold readSep
    rw [if_neg hi]
    show (readGivenChar ':' (':' :: t)).bind inner = inner t
    rw [readGivenChar_hit ':' t, Option.some_bind]

theorem readGroupsAux_glue :
    ∀ (gs : List Nat) (rem i : Nat) (rest : List Char),
      gs.length ≤ rem →
      (∀ g ∈ gs, g < 65536) →
      GroupStop rest →
      readGroupsAux rem i (glueFrom i gs ++ rest) = (gs, false, rest) := by
  intro gs
  induction gs with
  | nil =>
    intro rem i rest _ _ hstop
    show readGroupsAux rem i (List.nil ++ rest) = ([], false, rest)
    rw [List.nil_append]
    exact readGroupsAux_stop rem i rest hstop
  | cons g gs' ih =>
    intro rem i rest hlen hv hstop
    obtain ⟨r, rfl⟩ : ∃ r, rem = r + 1 := ⟨rem - 1, by simp at hlen; omega⟩
    have hg : g < 65536 := hv g (List.mem_cons_self g gs')
    have hv' : ∀ x ∈ gs', x < 65536 := fun x hx => hv x (List.mem_cons_of_mem _ hx)
    have hlen' : gs'.length ≤ r := by simp at hlen; omega
    have hys_dot : (((glueFrom (i + 1) gs' ++ rest).dropWhile
        fun ch => (charToDigit 10 ch).isSome).head?) ≠ some '.' := by
      cases gs' with
      | nil =>
        show ((List.nil ++ rest).dropWhile _).head? ≠ some '.'
        rw [List.nil_append]
        exact groupStop_dropWhile rest hstop
      | cons h t =>
        simp only [glueFrom]
        rw [if_neg (by omega : ¬(i + 1 = 0))]
        apply dropWhile_ndhead
        · intro c hc; simp at hc; rw [← hc]; decide
        · simp
    have hys_hex : headNotDigit 16 (glueFrom (i + 1) gs' ++ rest) := by
      cases gs' with
      | nil =>
        show headNotDigit 16 (List.nil ++ rest)
        rw [List.nil_append]
        exact groupStop_headNotDigit 16 rest hstop (by decide) (by decide)
      | cons h t =>
        simp only [glueFrom]
        rw [if_neg (by omega : ¬(i + 1 = 0))]
        intro c hc; simp at hc; rw [← hc]; decide
    have hv4fail : readIpv4 (natRepr 16 g ++ (glueFrom (i + 1) gs' ++ rest)) = none :=
      readIpv4_none _ (dropWhile_hex_head _ _ (natRepr_mem 16 (by omega) g) hys_dot)
    have hrec := ih r (i + 1) rest hlen' hv' hstop
    simp only [glueFrom]
    rw [List.append_assoc, List.append_assoc]
    simp only [readGroupsAux]
    have hv4' : (if 1 ≤ r then readSep ':' i readIpv4
        ((if i = 0 then [] else [':']) ++ (natRepr 16 g ++ (glueFrom (i + 1) gs' ++ rest)))
        else none) = none := by
      by_cases hr1 : 1 ≤ r
      · rw [if_pos hr1, readSep_glue]
        exact hv4fail
      · rw [if_neg hr1]
    have hhex' : readSep ':' i (readNumber 16 (some 4) true 65535)
        ((if i = 0 then [] else [':']) ++ (natRepr 16 g ++ (glueFrom (i + 1) gs' ++ rest))) =
          some (g, glueFrom (i + 1) gs' ++ rest) := by
      rw [readSep_glue]
      exact readHexGroup g hg _ hys_hex
    rw [hv4']
    simp only [groupV4Step]
    rw [hhex']
    simp [groupHexStep, hrec]

/-! ## The longest zero run -/

/-- `(start, len)` names a run of zero entries inside `l`. -/
def ZSpan (l : List Nat) (p : Nat × Nat) : Prop :=
  p.1 + p.2 ≤ l.length ∧ ∀ j < p.2, l.get? (p.1 + j) = some 0

theorem lzrAux_spec (full : List Nat) :
    ∀ (xs : List Nat) (i : Nat) (cur lon : Nat × Nat),
      full.drop i = xs →
      (cur.2 = 0 ∨ (cur.1 + cur.2 = i ∧ ZSpan full cur)) →
      ZSpan full lon →
      ZSpan full (lzrAux xs i cur lon) := by
  intro xs
  induction xs with
  | nil => intro i cur lon _ _ hlon; exact hlon
  | cons x xs' ih =>
    intro i cur lon hdrop hcur hlon
    have hget : full.get? i = some x := by
      have := List.get?_drop full i 0
      rw [hdrop] at this
      simpa using this.symm
    have hdrop' : full.drop (i + 1) = xs' := by
      have := List.drop_drop 1 i full
      rw [hdrop] at this
      simpa using this.symm
    have hilt : i < full.length := by
      rcases List.get?_eq_some.1 hget with ⟨h, -⟩
      exact h
    unfold lzrAux
    by_cases hx : x = 0
    · rw [if_pos hx]
      have hcur' : ∀ c' : Nat × Nat,
          c' = (if cur.2 = 0 then (i, 1) else (cur.1, cur.2 + 1)) →
          (c'.1 + c'.2 = i + 1 ∧ ZSpan full c') := by
        intro c' hc'
        by_cases h0 : cur.2 = 0
        · rw [hc', if_pos h0]
          refine ⟨by simp, by simp; omega, ?_⟩
          intro j hj
          have : j = 0 := by omega
          rw [this]
          simpa [hx] using hget
        · rw [hc', if_neg h0]
          rcases hcur with h | ⟨hend, hsp⟩
          · exact absurd h h0
          refine ⟨by simp; omega, by simp; omega, ?_⟩
          intro j hj
          simp only at hj ⊢
          by_cases hjlt : j < cur.2
          · exact hsp.2 j hjlt
          · have : j = cur.2 := by omega
            rw [this, hend]
            simpa [hx] using hget
      obtain ⟨hend', hsp'⟩ := hcur' _ rfl
      apply ih (i + 1) _ _ hdrop' (Or.inr ⟨hend', hsp'⟩)
      by_cases hgt : lon.2 < (if cur.2 = 0 then (i, 1) else (cur.1, cur.2 + 1)).2
      · rw [if_pos hgt]; exact hsp'
      · rw [if_neg hgt]; exact hlon
    · rw [if_neg hx]
      exact ih (i + 1) (0, 0) lon hdrop' (Or.inl rfl) hlon

theorem longestZeroRun_spec (l : List Nat) : ZSpan l (longestZeroRun l) := by
  unfold longestZeroRun
  exact lzrAux_spec l l 0 (0, 0) (0, 0) (by simp) (Or.inl rfl) ⟨by simp, by intro j hj; omega⟩

/-- Splicing a zero run back: if `l` is zero on `[start, start+len)` then
taking, inserting the zeros and dropping reassembles `l`. -/
theorem take_replicate_drop (l : List Nat) (start len : Nat)
    (hle : start + len ≤ l.length)
    (hz : ∀ j < len, l.get? (start + j) = some 0) :
    l.take start ++ List.replicate len 0 ++ l.drop (start + len) = l := by
  have hmid : List.replicate len 0 = (l.drop start).take len := by
    symm
    rw [List.eq_replicate]
    constructor
    · rw [List.length_take, List.length_drop]
      omega
    · intro b hb
      obtain ⟨j, hj⟩ := List.mem_iff_get?.1 hb
      have hjlt : j < len := by
        by_contra hge
        rw [List.get?_eq_none.2 (by rw [List.length_take, List.length_drop]; omega)] at hj
        exact Option.noConfusion hj
      rw [List.get?_take hjlt, List.get?_drop] at hj
      have := hz j hjlt
      rw [this] at hj
      exact (Option.some.inj hj).symm
  rw [hmid]
  have hdd : l.drop (start + len) = (l.drop start).drop len := by
    rw [List.drop_drop]
  rw [hdd, List.append_assoc, List.take_append_drop, List.take_append_drop]

/-! ## The IPv6 display round trip -/

theorem Ipv6Addr.segs_length (a : Ipv6Addr) : a.segs.length = 8 := rfl

theorem ipv6OfList_segs (a : Ipv6Addr) : ipv6OfList a.segs = a := rfl

theorem endOk_headNotDigit (radix : Nat) (rest : List Char) (h : endOk rest)
    (hcb : charToDigit radix ']' = none) : headNotDigit radix rest := by
  rcases h with rfl | ⟨r, rfl⟩
  · intro c hc; simp at hc
  · intro c hc; simp at hc; rw [← hc]; exact hcb

theorem readGroupsAux_v4tail (g6 g7 : Nat) (h6 : g6 < 65536) (h7 : g7 < 65536)
    (rest : List Char) (hrest : endOk rest) :
    readGroupsAux 7 0 (['f', 'f', 'f', 'f'] ++ ':' ::
      (ipv4Display ⟨g6 / 256, g6 % 256, g7 / 256, g7 % 256⟩ ++ rest)) =
    ([65535, g6, g7], true, rest) := by
  have hffff : natRepr 16 65535 = ['f', 'f', 'f', 'f'] := by decide
  have hv4read : readIpv4 (ipv4Display ⟨g6 / 256, g6 % 256, g7 / 256, g7 % 256⟩ ++ rest) =
      some (⟨g6 / 256, g6 % 256, g7 / 256, g7 % 256⟩, rest) :=
    readIpv4_display _ (by show g6 / 256 < 256; omega) (by show g6 % 256 < 256; omega)
      (by show g7 / 256 < 256; omega) (by show g7 % 256 < 256; omega) rest
      (endOk_headNotDigit 10 rest hrest (by decide))
  show readGroupsAux (6 + 1) 0 _ = _
  simp only [readGroupsAux]
  have hv4a : readIpv4 (['f', 'f', 'f', 'f'] ++ ':' ::
      (ipv4Display ⟨g6 / 256, g6 % 256, g7 / 256, g7 % 256⟩ ++ rest)) = none := by
    apply readIpv4_none
    apply dropWhile_ndhead
    · intro c hc; simp at hc; rw [← hc]; decide
    · simp
  have hsep4 : (if 1 ≤ 6 then readSep ':' 0 readIpv4 (['f', 'f', 'f', 'f'] ++ ':' ::
      (ipv4Display ⟨g6 / 256, g6 % 256, g7 / 256, g7 % 256⟩ ++ rest)) else none) = none := by
    rw [if_pos (by omega)]
    unfold readSep
    rw [if_pos rfl]
    exact hv4a
  have hsephex : readSep ':' 0 (readNumber 16 (some 4) true 65535)
      (['f', 'f', 'f', 'f'] ++ ':' ::
        (ipv4Display ⟨g6 / 256, g6 % 256, g7 / 256, g7 % 256⟩ ++ rest)) =
      some (65535, ':' :: (ipv4Display ⟨g6 / 256, g6 % 256, g7 / 256, g7 % 256⟩ ++ rest)) := by
    unfold readSep
    rw [if_pos rfl, ← hffff]
    exact readHexGroup 65535 (by omega) _ (by intro c hc; simp at hc; rw [← hc]; decide)
  rw [hsep4]
  simp only [groupV4Step]
  rw [hsephex]
  simp only [groupHexStep]
  show (65535 :: (readGroupsAux (5 + 1) 1 _).1, _) = _
  simp only [readGroupsAux]
  have hsep4' : (if 1 ≤ 5 then readSep ':' 1 readIpv4 (':' ::
      (ipv4Display ⟨g6 / 256, g6 % 256, g7 / 256, g7 % 256⟩ ++ rest)) else none) =
      some (⟨g6 / 256, g6 % 256, g7 / 256, g7 % 256⟩, rest) := by
    rw [if_pos (by omega)]
    unfold readSep
    rw [if_neg (by omega), readGivenChar_hit ':' _, Option.some_bind]
    exact hv4read
  rw [hsep4']
  simp only [groupV4Step]
  have e6 : g6 / 256 * 256 + g6 % 256 = g6 := by omega
  have e7 : g7 / 256 * 256 + g7 % 256 = g7 := by omega
  simp [e6, e7]

theorem readIpv6_display (a : Ipv6Addr) (wf : ∀ g ∈ a.segs, g < 65536) (rest : List Char)
    (hrest : endOk rest) :
    readIpv6 (ipv6Display a ++ rest) = some (a, rest) := by
  unfold ipv6Display
  by_cases hmap : a.isV4Mapped = true
  · rw [if_pos hmap]
    obtain ⟨g0, g1, g2, g3, g4, g5, g6, g7⟩ := a
    simp only [Ipv6Addr.isV4Mapped, decide_eq_true_eq] at hmap
    obtain ⟨rfl, rfl, rfl, rfl, rfl, rfl⟩ := hmap
    have h6 : g6 < 65536 := wf g6 (by simp [Ipv6Addr.segs])
    have h7 : g7 < 65536 := wf g7 (by simp [Ipv6Addr.segs])
    have hstr : str "::ffff:" = ':' :: ':' :: ('f' :: 'f' :: 'f' :: 'f' :: ':' :: []) := by decide
    have hshape : (str "::ffff:" ++
        ipv4Display ⟨g6 / 256, g6 % 256, g7 / 256, g7 % 256⟩) ++ rest =
        ':' :: ':' :: (['f', 'f', 'f', 'f'] ++ ':' ::
          (ipv4Display ⟨g6 / 256, g6 % 256, g7 / 256, g7 % 256⟩ ++ rest)) := by
      rw [hstr]
      simp
    rw [hshape]
    have hhead := readGroupsAux_stop 8 0
      (':' :: ':' :: (['f', 'f', 'f', 'f'] ++ ':' ::
        (ipv4Display ⟨g6 / 256, g6 % 256, g7 / 256, g7 % 256⟩ ++ rest)))
      (Or.inr (Or.inr ⟨_, rfl⟩))
    unfold readIpv6
    rw [hhead]
    simp only [List.length_nil]
    rw [if_neg (by omega)]
    simp only [Bool.false_eq_true, if_false]
    have hstrip : stripTwoColons (':' :: ':' :: (['f', 'f', 'f', 'f'] ++ ':' ::
        (ipv4Display ⟨g6 / 256, g6 % 256, g7 / 256, g7 % 256⟩ ++ rest))) =
        some (['f', 'f', 'f', 'f'] ++ ':' ::
          (ipv4Display ⟨g6 / 256, g6 % 256, g7 / 256, g7 % 256⟩ ++ rest)) := by
      simp [stripTwoColons]
    rw [hstrip, Option.some_bind]
    have h81 : 8 - (0 + 1) = 7 := by omega
    rw [h81]
    rw [readGroupsAux_v4tail g6 g7 h6 h7 rest hrest]
    simp [ipv6OfList, List.replicate]
  · rw [if_neg hmap]
    by_cases hln : 1 < (longestZeroRun a.segs).2
    · rw [if_pos hln]
      obtain ⟨hle8, hzeros⟩ := longestZeroRun_spec a.segs
      rw [Ipv6Addr.segs_length] at hle8
      have hst6 : (longestZeroRun a.segs).1 ≤ 6 := by omega
      have hshape : (glueFrom 0 (a.segs.take (longestZeroRun a.segs).1) ++ str "::" ++
          glueFrom 0 (a.segs.drop ((longestZeroRun a.segs).1 + (longestZeroRun a.segs).2))) ++
            rest =
          glueFrom 0 (a.segs.take (longestZeroRun a.segs).1) ++
            (':' :: ':' :: (glueFrom 0
              (a.segs.drop ((longestZeroRun a.segs).1 + (longestZeroRun a.segs).2)) ++ rest)) := by
        have : str "::" = [':', ':'] := by decide
        rw [this]
        simp
      rw [hshape]
      have htklen : (a.segs.take (longestZeroRun a.segs).1).length =
          (longestZeroRun a.segs).1 := by
        rw [List.length_take, Ipv6Addr.segs_length]
        omega
      have hdplen : (a.segs.drop ((longestZeroRun a.segs).1 + (longestZeroRun a.segs).2)).length =
          8 - ((longestZeroRun a.segs).1 + (longestZeroRun a.segs).2) := by
        rw [List.length_drop, Ipv6Addr.segs_length]
      have hhead := readGroupsAux_glue (a.segs.take (longestZeroRun a.segs).1) 8 0
        (':' :: ':' :: (glueFrom 0
          (a.segs.drop ((longestZeroRun a.segs).1 + (longestZeroRun a.segs).2)) ++ rest))
        (by rw [htklen]; omega)
        (fun g hg => wf g (List.take_subset _ _ hg))
        (Or.inr (Or.inr ⟨_, rfl⟩))
      unfold readIpv6
      rw [hhead]
      simp only
      rw [if_neg (by rw [htklen]; omega)]
      simp only [Bool.false_eq_true, if_false]
      have hstrip : stripTwoColons (':' :: ':' :: (glueFrom 0
          (a.segs.drop ((longestZeroRun a.segs).1 + (longestZeroRun a.segs).2)) ++ rest)) =
          some (glueFrom 0
            (a.segs.drop ((longestZeroRun a.segs).1 + (longestZeroRun a.segs).2)) ++ rest) := by
        simp [stripTwoColons]
      rw [hstrip, Option.some_bind]
      have htail := readGroupsAux_glue
        (a.segs.drop ((longestZeroRun a.segs).1 + (longestZeroRun a.segs).2))
        (8 - ((a.segs.take (longestZeroRun a.segs).1).length + 1)) 0 rest
        (by rw [htklen, hdplen]; omega)
        (fun g hg => wf g (List.drop_subset _ _ hg))
        (groupStop_of_endOk rest hrest)
      rw [htail]
      simp only
      have hcount : 8 - (a.segs.take (longestZeroRun a.segs).1).length -
          (a.segs.drop ((longestZeroRun a.segs).1 + (longestZeroRun a.segs).2)).length =
          (longestZeroRun a.segs).2 := by
        rw [htklen, hdplen]
        omega
      rw [hcount]
      have hsplice : a.segs.take (longestZeroRun a.segs).1 ++
          List.replicate (longestZeroRun a.segs).2 0 ++
          a.segs.drop ((longestZeroRun a.segs).1 + (longestZeroRun a.segs).2) = a.segs :=
        take_replicate_drop a.segs _ _ (by rw [Ipv6Addr.segs_length]; omega) hzeros
      rw [hsplice, ipv6OfList_segs]
    · rw [if_neg hln]
      have hred := readGroupsAux_glue a.segs 8 0 rest (by rw [Ipv6Addr.segs_length]) wf
        (groupStop_of_endOk rest hrest)
      unfold readIpv6
      rw [hred]
      simp only
      rw [if_pos (Ipv6Addr.segs_length a), ipv6OfList_segs]

/-! ## Well-formedness of address values -/

/-- Octets within `u8` range. -/
def Ipv4Wf (a : Ipv4Addr) : Prop :=
  a.o1 < 256 ∧ a.o2 < 256 ∧ a.o3 < 256 ∧ a.o4 < 256

/-- Groups within `u16` range. -/
def Ipv6Wf (a : Ipv6Addr) : Prop := ∀ g ∈ a.segs, g < 65536

/-- Well-formed IP address. -/
def IpWf : IpAddr → Prop
  | .v4 a => Ipv4Wf a
  | .v6 a => Ipv6Wf a

instance decIpv4Wf (a : Ipv4Addr) : Decidable (Ipv4Wf a) := by
  unfold Ipv4Wf
  infer_instance

instance decIpv6Wf (a : Ipv6Addr) : Decidable (Ipv6Wf a) := by
  unfold Ipv6Wf
  infer_instance

instance decIpWf (ip : IpAddr) : Decidable (IpWf ip) :=
  match ip with
  | .v4 a => inferInstanceAs (Decidable (Ipv4Wf a))
  | .v6 a => inferInstanceAs (Decidable (Ipv6Wf a))

instance decOptionBAll {α : Type} (p : α → Prop) [DecidablePred p] (o : Option α) :
    Decidable (∀ a ∈ o, p a) :=
  match o with
  | none => isTrue (by intro a ha; cases ha)
  | some x => decidable_of_iff (p x) (by simp)

/-- A valid `Tcp` value: well-formed fields and (per the documented invariant)
at least one of `ip`, `port` present. -/
def Tcp.Valid (t : Tcp) : Prop :=
  (t.ip.isSome ∨ t.port.isSome) ∧
    (∀ ip ∈ t.ip, IpWf ip) ∧ (∀ p ∈ t.port, p < 65536)

instance decTcpValid (t : Tcp) : Decidable t.Valid := by
  unfold Tcp.Valid
  infer_instance

/-- A valid `AdbSocketFamily` value: non-empty names, `u32`-ranged numbers,
valid `Tcp`. -/
def AdbSocketFamily.Valid : AdbSocketFamily → Prop
  | .tcp t => t.Valid
  | .localAbstract n => n ≠ []
  | .localReserved n => n ≠ []
  | .localFileSystem n => n ≠ []
  | .dev n => n ≠ []
  | .devRaw n => n ≠ []
  | .jdwp p => p < 4294967296
  | .vsock c p => c < 4294967296 ∧ p < 4294967296
  | .acceptFd f => f < 4294967296

instance decFamValid (v : AdbSocketFamily) : Decidable v.Valid :=
  match v with
  | .tcp t => inferInstanceAs (Decidable t.Valid)
  | .localAbstract n => inferInstanceAs (Decidable (n ≠ []))
  | .localReserved n => inferInstanceAs (Decidable (n ≠ []))
  | .localFileSystem n => inferInstanceAs (Decidable (n ≠ []))
  | .dev n => inferInstanceAs (Decidable (n ≠ []))
  | .devRaw n => inferInstanceAs (Decidable (n ≠ []))
  | .jdwp p => inferInstanceAs (Decidable (p < 4294967296))
  | .vsock c p => inferInstanceAs (Decidable (c < 4294967296 ∧ p < 4294967296))
  | .acceptFd f => inferInstanceAs (Decidable (f < 4294967296))

/-! ## Structure of the displayed addresses -/

theorem glueFrom_zero_cons (g : Nat) (gs : List Nat) :
    glueFrom 0 (g :: gs) = natRepr 16 g ++ glueFrom 1 gs := by
  simp [glueFrom]

theorem glueFrom_succ_cons (i g : Nat) (gs : List Nat) :
    glueFrom (i + 1) (g :: gs) = ':' :: (natRepr 16 g ++ glueFrom (i + 2) gs) := by
  simp [glueFrom]

/-- Every IPv6 display splits as hex digits followed by a `':'`-headed tail. -/
theorem ipv6Display_split (a : Ipv6Addr) :
    ∃ xs ys, ipv6Display a = xs ++ ys ∧ DigitChars 16 xs ∧ ys.head? = some ':' := by
  unfold ipv6Display
  by_cases hmap : a.isV4Mapped = true
  · rw [if_pos hmap]
    refine ⟨[], _, rfl, by intro c hc; simp at hc, ?_⟩
    simp [str]
  · rw [if_neg hmap]
    by_cases hln : 1 < (longestZeroRun a.segs).2
    · rw [if_pos hln]
      cases htk : a.segs.take (longestZeroRun a.segs).1 with
      | nil =>
        refine ⟨[], _, rfl, by intro c hc; simp at hc, ?_⟩
        simp
      | cons g gs' =>
        rw [glueFrom_zero_cons]
        refine ⟨natRepr 16 g,
          glueFrom 1 gs' ++ (str "::" ++ glueFrom 0
            (a.segs.drop ((longestZeroRun a.segs).1 + (longestZeroRun a.segs).2))),
          by simp, ?_, ?_⟩
        · intro c hc
          obtain ⟨d, hd, hcd⟩ := natRepr_mem 16 (by omega) g c hc
          exact ⟨d, hd, hcd⟩
        · have h2 : str "::" = ':' :: [':'] := by decide
          cases gs' with
          | nil =>
            rw [h2]
            simp [glueFrom]
          | cons h t =>
            rw [h2]
            simp [glueFrom]
    · rw [if_neg hln]
      obtain ⟨g0, g1, g2, g3, g4, g5, g6, g7⟩ := a
      show ∃ xs ys, glueFrom 0 (g0 :: [g1, g2, g3, g4, g5, g6, g7]) = xs ++ ys ∧ _ ∧ _
      rw [glueFrom_zero_cons]
      refine ⟨natRepr 16 g0, _, rfl, ?_, ?_⟩
      · intro c hc
        exact natRepr_mem 16 (by omega) g0 c hc
      · simp [glueFrom]

theorem ipv6Display_colon (a : Ipv6Addr) : ':' ∈ ipv6Display a := by
  obtain ⟨xs, ys, heq, -, hhd⟩ := ipv6Display_split a
  rw [heq]
  apply List.mem_append.2
  right
  cases ys with
  | nil => simp at hhd
  | cons c cs =>
    simp at hhd
    rw [hhd]
    exact List.mem_cons_self ':' cs

theorem ipv6Display_ne_nil (a : Ipv6Addr) : ipv6Display a ≠ [] := by
  intro h
  have := ipv6Display_colon a
  rw [h] at this
  simp at this

/-- The head of an IPv6 display is a hex digit char or `':'`. -/
theorem ipv6Display_head (a : Ipv6Addr) :
    ∃ c cs, ipv6Display a = c :: cs ∧ (c = ':' ∨ ∃ d, d < 16 ∧ c = digitChar d) := by
  obtain ⟨xs, ys, heq, hdig, hhd⟩ := ipv6Display_split a
  cases xs with
  | nil =>
    cases ys with
    | nil => simp at hhd
    | cons c cs =>
      simp at hhd
      exact ⟨c, cs, by rw [heq]; simp, Or.inl hhd⟩
  | cons c cs =>
    obtain ⟨d, hd, hcd⟩ := hdig c (List.mem_cons_self c cs)
    exact ⟨c, cs ++ ys, by rw [heq]; simp, Or.inr ⟨d, hd, hcd⟩⟩

/-- `readIpv4` fails on anything starting with an IPv6 display. -/
theorem readIpv4_ipv6Display (a : Ipv6Addr) (rest : List Char) :
    readIpv4 (ipv6Display a ++ rest) = none := by
  obtain ⟨xs, ys, heq, hdig, hhd⟩ := ipv6Display_split a
  rw [heq, List.append_assoc]
  apply readIpv4_none
  apply dropWhile_hex_head xs (ys ++ rest) hdig
  apply dropWhile_ndhead
  · intro c hc
    cases ys with
    | nil => simp at hhd
    | cons y ys' =>
      simp at hhd hc
      rw [← hc, hhd]
      decide
  · cases ys with
    | nil => simp at hhd
    | cons y ys' =>
      simp at hhd ⊢
      rw [hhd]
      decide

/-! ## String helper lemmas -/

theorem stripPre_append (p v : List Char) : stripPre p (p ++ v) = some v := by
  induction p with
  | nil => rfl
  | cons c ps ih => simp [stripPre, ih]

theorem stripPre_ne_head (p : List Char) (hp : p ≠ []) (c : Char) (cs : List Char)
    (hc : ∀ d ds, p = d :: ds → c ≠ d) : stripPre p (c :: cs) = none := by
  match p, hp with
  | d :: ds, _ =>
    simp only [stripPre]
    rw [if_neg (hc d ds rfl)]

theorem stripSuf_single (c : Char) (l : List Char) : stripSuf [c] (l ++ [c]) = some l := by
  unfold stripSuf
  have h1 : ([c] : List Char).reverse = [c] := rfl
  have h2 : (l ++ [c]).reverse = c :: l.reverse := by simp
  rw [h1, h2]
  have : stripPre [c] (c :: l.reverse) = some l.reverse := stripPre_append [c] l.reverse
  rw [this]
  simp

theorem splitOnce_append (c : Char) (l r : List Char) (hl : c ∉ l) :
    splitOnce c (l ++ c :: r) = some (l, r) := by
  induction l with
  | nil => simp [splitOnce]
  | cons x xs ih =>
    have hx : x ≠ c := fun h => hl (by rw [h]; exact List.mem_cons_self c xs)
    have hxs : c ∉ xs := fun h => hl (List.mem_cons_of_mem _ h)
    simp only [List.cons_append, splitOnce, List.append_eq]
    rw [if_neg hx, ih hxs]

/-! ## `u16::from_str` failure on displayed addresses -/

theorem dot_mem_ipv4Display (a : Ipv4Addr) : '.' ∈ ipv4Display a := by
  unfold ipv4Display
  simp

theorem u16FromStr_ipv4Display (a : Ipv4Addr) (rest : List Char) :
    u16FromStr (ipv4Display a ++ rest) = none :=
  uintFromStr_none 65535 _ ⟨'.', List.mem_append.2 (Or.inl (dot_mem_ipv4Display a)),
    by decide, by decide⟩

theorem u16FromStr_ipv6Display (a : Ipv6Addr) (rest : List Char) :
    u16FromStr (ipv6Display a ++ rest) = none :=
  uintFromStr_none 65535 _ ⟨':', List.mem_append.2 (Or.inl (ipv6Display_colon a)),
    by decide, by decide⟩

theorem u16FromStr_bracket (cs : List Char) : u16FromStr ('[' :: cs) = none :=
  uintFromStr_none 65535 _ ⟨'[', List.mem_cons_self _ _, by decide, by decide⟩

/-- The head of an IPv4 display is a decimal digit character. -/
theorem ipv4Display_head (a : Ipv4Addr) :
    ∃ c cs, ipv4Display a = c :: cs ∧ ∃ d, d < 10 ∧ c = digitChar d := by
  obtain ⟨c, cs, heq⟩ := List.exists_cons_of_ne_nil (natRepr_ne_nil 10 (by omega) a.o1)
  obtain ⟨d, hd, hcd⟩ := natRepr_mem 10 (by omega) a.o1 c (by rw [heq]; exact List.mem_cons_self _ _)
  exact ⟨c, cs ++ (['.'] ++ natRepr 10 a.o2 ++ ['.'] ++ natRepr 10 a.o3 ++ ['.'] ++
    natRepr 10 a.o4), by unfold ipv4Display; rw [heq]; simp, d, hd, hcd⟩

theorem readIpv4_bracket (cs : List Char) : readIpv4 ('[' :: cs) = none := by
  apply readIpv4_none
  apply dropWhile_ndhead
  · intro c hc; simp at hc; rw [← hc]; decide
  · simp

/-! ## The Tcp round trip -/

theorem headNotDigit_colon (t : List Char) : headNotDigit 10 (':' :: t) := by
  intro c hc
  simp at hc
  rw [← hc]
  decide

theorem headNotDigit_nil (radix : Nat) : headNotDigit radix [] := by
  intro c hc
  simp at hc

theorem tcp_fromStr_value (v : List Char) (hv : v ≠ []) :
    Tcp.fromStr (str "tcp:" ++ v) = tcpU16 v (u16FromStr v) := by
  unfold Tcp.fromStr
  rw [stripPre_append]
  simp only [tcpStart]
  rw [if_neg hv]

theorem readNumber_port (p : Nat) (hp : p < 65536) :
    readNumber 10 none true 65535 (natRepr 10 p) = some (p, []) := by
  have := readNumber_natRepr 10 65535 (by omega) (by omega) none true p [] (by omega)
    (by intro m hm; cases hm) (headNotDigit_nil 10)
  rw [List.append_nil] at this
  exact this

theorem readPort_colon_repr (p : Nat) (hp : p < 65536) :
    readPort (':' :: natRepr 10 p) = some (p, []) := by
  unfold readPort
  rw [readGivenChar_hit, Option.some_bind]
  exact readNumber_port p hp

theorem tcp_roundtrip_port (p : Nat) (hp : p < 65536) :
    Tcp.fromStr (str "tcp:" ++ natRepr 10 p) = .ok (Tcp.withPort p) := by
  rw [tcp_fromStr_value _ (natRepr_ne_nil 10 (by omega) p)]
  have h : u16FromStr (natRepr 10 p) = some p := uintFromStr_natRepr 65535 p (by omega)
  rw [h]
  simp [tcpU16]

theorem sockAddr_v4disp_noport (a : Ipv4Addr) (wf : Ipv4Wf a) :
    sockAddrFromStr (ipv4Display a) = none := by
  have hip : readIpv4 (ipv4Display a) = some (a, []) := by
    have := readIpv4_display a wf.1 wf.2.1 wf.2.2.1 wf.2.2.2 [] (headNotDigit_nil 10)
    rw [List.append_nil] at this
    exact this
  unfold sockAddrFromStr
  have hsock : readSockV4 (ipv4Display a) = none := by
    unfold readSockV4
    rw [hip, Option.some_bind]
    simp only
    have hport : readPort ([] : List Char) = none := rfl
    rw [hport, Option.none_bind]
  rw [hsock]
  simp only [sockOr]
  have hv6 : readSockV6 (ipv4Display a) = none := by
    unfold readSockV6
    obtain ⟨c, cs, heq, d, hd, hcd⟩ := ipv4Display_head a
    rw [heq]
    have hlb : stripLBracket (c :: cs) = none := by
      simp only [stripLBracket]
      rw [if_neg (by rw [hcd]; exact digitChar_ne_char d (by omega) '[' (by decide))]
    rw [hlb, Option.none_bind]
  rw [hv6]
  simp [sockV6Side]

theorem tcp_roundtrip_v4 (a : Ipv4Addr) (wf : Ipv4Wf a) :
    Tcp.fromStr (str "tcp:" ++ ipv4Display a) = .ok (Tcp.withIpv4 a) := by
  have hne : ipv4Display a ≠ [] := by
    obtain ⟨c, cs, heq, -⟩ := ipv4Display_head a
    rw [heq]
    simp
  rw [tcp_fromStr_value _ hne]
  have hu16 : u16FromStr (ipv4Display a) = none := by
    have := u16FromStr_ipv4Display a []
    rw [List.append_nil] at this
    exact this
  rw [hu16]
  simp only [tcpU16]
  rw [sockAddr_v4disp_noport a wf]
  simp only [tcpSock]
  have hip4 : ipv4FromStr (ipv4Display a) = some a := by
    unfold ipv4FromStr
    have hip : readIpv4 (ipv4Display a) = some (a, []) := by
      have := readIpv4_display a wf.1 wf.2.1 wf.2.2.1 wf.2.2.2 [] (headNotDigit_nil 10)
      rw [List.append_nil] at this
      exact this
    rw [hip]
    simp [fullRead]
  rw [hip4]
  simp [tcpV4]

theorem tcp_roundtrip_v4port (a : Ipv4Addr) (wf : Ipv4Wf a) (p : Nat) (hp : p < 65536) :
    Tcp.fromStr (str "tcp:" ++ (ipv4Display a ++ ':' :: natRepr 10 p)) =
      .ok (Tcp.new (.v4 a) p) := by
  have hne : ipv4Display a ++ ':' :: natRepr 10 p ≠ [] := by simp
  rw [tcp_fromStr_value _ hne]
  rw [u16FromStr_ipv4Display a _]
  simp only [tcpU16]
  have hsock : sockAddrFromStr (ipv4Display a ++ ':' :: natRepr 10 p) = some (.v4 a p) := by
    unfold sockAddrFromStr readSockV4
    rw [readIpv4_display a wf.1 wf.2.1 wf.2.2.1 wf.2.2.2 _ (headNotDigit_colon _),
      Option.some_bind]
    simp only
    rw [readPort_colon_repr p hp, Option.some_bind]
    simp [sockOr]
  rw [hsock]
  simp [tcpSock, Tcp.ofSockAddr, Tcp.new]

theorem readScopeId_rbracket (r : List Char) : readScopeId (']' :: r) = none := by
  unfold readScopeId
  have : readGivenChar '%' (']' :: r) = none := by
    simp only [readGivenChar]
    rw [if_neg (by decide : ¬(']' = '%'))]
  rw [this, Option.none_bind]

theorem readSockV6_v6disp_noport (a : Ipv6Addr) (wf : Ipv6Wf a) :
    readSockV6 ('[' :: (ipv6Display a ++ [']'])) = none := by
  unfold readSockV6
  have hlb : stripLBracket ('[' :: (ipv6Display a ++ [']'])) =
      some (ipv6Display a ++ [']']) := by
    simp [stripLBracket]
  rw [hlb, Option.some_bind]
  rw [readIpv6_display a wf [']'] (Or.inr ⟨[], rfl⟩), Option.some_bind]
  simp only
  rw [readScopeId_rbracket]
  simp only [scopeOr]
  have hrb : stripRBracket [']'] = some [] := by simp [stripRBracket]
  rw [hrb, Option.some_bind]
  have hport : readPort ([] : List Char) = none := rfl
  rw [hport, Option.none_bind]

theorem readSockV6_v6disp_port (a : Ipv6Addr) (wf : Ipv6Wf a) (p : Nat) (hp : p < 65536) :
    readSockV6 ('[' :: (ipv6Display a ++ (']' :: ':' :: natRepr 10 p))) =
      some ((a, p, 0), []) := by
  unfold readSockV6
  have hlb : stripLBracket ('[' :: (ipv6Display a ++ (']' :: ':' :: natRepr 10 p))) =
      some (ipv6Display a ++ (']' :: ':' :: natRepr 10 p)) := by
    simp [stripLBracket]
  rw [hlb, Option.some_bind]
  rw [readIpv6_display a wf (']' :: ':' :: natRepr 10 p) (Or.inr ⟨_, rfl⟩), Option.some_bind]
  simp only
  rw [readScopeId_rbracket]
  simp only [scopeOr]
  have hrb : stripRBracket (']' :: ':' :: natRepr 10 p) = some (':' :: natRepr 10 p) := by
    simp [stripRBracket]
  rw [hrb, Option.some_bind]
  rw [readPort_colon_repr p hp, Option.some_bind]

theorem tcp_roundtrip_v6 (a : Ipv6Addr) (wf : Ipv6Wf a) :
    Tcp.fromStr (str "tcp:" ++ ('[' :: (ipv6Display a ++ [']']))) =
      .ok (Tcp.withIpv6 a) := by
  rw [tcp_fromStr_value _ (by simp)]
  rw [u16FromStr_bracket]
  simp only [tcpU16]
  have hsock : sockAddrFromStr ('[' :: (ipv6Display a ++ [']'])) = none := by
    unfold sockAddrFromStr readSockV4
    rw [readIpv4_bracket, Option.none_bind]
    simp only [sockOr]
    rw [readSockV6_v6disp_noport a wf]
    simp [sockV6Side]
  rw [hsock]
  simp only [tcpSock]
  have hv4 : ipv4FromStr ('[' :: (ipv6Display a ++ [']'])) = none := by
    unfold ipv4FromStr
    rw [readIpv4_bracket]
    simp [fullRead]
  rw [hv4]
  simp only [tcpV4]
  have hstrip : (stripPre ['['] ('[' :: (ipv6Display a ++ [']']))).bind (stripSuf [']']) =
      some (ipv6Display a) := by
    have h1 : stripPre ['['] ('[' :: (ipv6Display a ++ [']'])) =
        some (ipv6Display a ++ [']']) := stripPre_append ['['] _
    rw [h1, Option.some_bind]
    exact stripSuf_single ']' (ipv6Display a)
  rw [hstrip]
  simp only [tcpBracket]
  have hv6 : ipv6FromStr (ipv6Display a) = some a := by
    unfold ipv6FromStr
    have := readIpv6_display a wf [] (Or.inl rfl)
    rw [List.append_nil] at this
    rw [this]
    simp [fullRead]
  rw [hv6]
  simp [tcpV6]

theorem tcp_roundtrip_v6port (a : Ipv6Addr) (wf : Ipv6Wf a) (p : Nat) (hp : p < 65536) :
    Tcp.fromStr (str "tcp:" ++ ('[' :: (ipv6Display a ++ (']' :: ':' :: natRepr 10 p)))) =
      .ok (Tcp.new (.v6 a) p) := by
  rw [tcp_fromStr_value _ (by simp)]
  rw [u16FromStr_bracket]
  simp only [tcpU16]
  have hsock : sockAddrFromStr ('[' :: (ipv6Display a ++ (']' :: ':' :: natRepr 10 p))) =
      some (.v6 a p 0 0) := by
    unfold sockAddrFromStr readSockV4
    rw [readIpv4_bracket, Option.none_bind]
    simp only [sockOr]
    rw [readSockV6_v6disp_port a wf p hp]
    simp [sockV6Side]
  rw [hsock]
  simp [tcpSock, Tcp.ofSockAddr, Tcp.new]

theorem Tcp.fromStr_display (t : Tcp) (hv : t.Valid) : Tcp.fromStr t.display = .ok t := by
  obtain ⟨ip, port⟩ := t
  obtain ⟨hne, hipwf, hportwf⟩ := hv
  match ip, port with
  | none, none => simp at hne
  | none, some p =>
    have hp : p < 65536 := hportwf p rfl
    have hd : Tcp.display ⟨none, some p⟩ = str "tcp:" ++ natRepr 10 p := rfl
    rw [hd, tcp_roundtrip_port p hp]
    rfl
  | some (.v4 a), none =>
    have hwf : Ipv4Wf a := hipwf (.v4 a) rfl
    have hd : Tcp.display ⟨some (.v4 a), none⟩ = str "tcp:" ++ ipv4Display a := rfl
    rw [hd, tcp_roundtrip_v4 a hwf]
    rfl
  | some (.v4 a), some p =>
    have hwf : Ipv4Wf a := hipwf (.v4 a) rfl
    have hp : p < 65536 := hportwf p rfl
    have hd : Tcp.display ⟨some (.v4 a), some p⟩ =
        str "tcp:" ++ (ipv4Display a ++ ':' :: natRepr 10 p) := by
      show str "tcp:" ++ ipv4Display a ++ [':'] ++ natRepr 10 p = _
      simp
    rw [hd, tcp_roundtrip_v4port a hwf p hp]
    rfl
  | some (.v6 a), none =>
    have hwf : Ipv6Wf a := hipwf (.v6 a) rfl
    have hd : Tcp.display ⟨some (.v6 a), none⟩ =
        str "tcp:" ++ ('[' :: (ipv6Display a ++ [']'])) := by
      show str "tcp:[" ++ ipv6Display a ++ [']'] = _
      have h1 : str "tcp:[" = str "tcp:" ++ ['['] := by decide
      rw [h1]
      simp
    rw [hd, tcp_roundtrip_v6 a hwf]
    rfl
  | some (.v6 a), some p =>
    have hwf : Ipv6Wf a := hipwf (.v6 a) rfl
    have hp : p < 65536 := hportwf p rfl
    have hd : Tcp.display ⟨some (.v6 a), some p⟩ =
        str "tcp:" ++ ('[' :: (ipv6Display a ++ (']' :: ':' :: natRepr 10 p))) := by
      show str "tcp:[" ++ ipv6Display a ++ str "]:" ++ natRepr 10 p = _
      have h1 : str "tcp:[" = str "tcp:" ++ ['['] := by decide
      have h2 : str "]:" = [']', ':'] := by decide
      rw [h1, h2]
      simp
    rw [hd, tcp_roundtrip_v6port a hwf p hp]
    rfl

/-! ## Family-level round trip -/

theorem colon_not_mem_natRepr (n : Nat) : ':' ∉ natRepr 10 n := by
  intro h
  obtain ⟨d, hd, hcd⟩ := natRepr_mem 10 (by omega) n ':' h
  exact digitChar_ne_char d (by omega) ':' (by decide) hcd.symm

theorem keyedFromStr_success {α : Type} (key ty val : List Char) (pv : List Char → Option α)
    (v : List Char) (hv : v ≠ []) (a : α) (hpv : pv v = some a) (hks : ':' ∉ key) :
    keyedFromStr key ty val pv (key ++ ':' :: v) = .ok a := by
  unfold keyedFromStr
  rw [splitOnce_append ':' key v hks]
  simp only [keyedCont]
  rw [if_pos trivial, if_neg hv, hpv]
  simp [keyedVal]

theorem keyedFromStr_wrongkey {α : Type} (key ty val : List Char) (pv : List Char → Option α)
    (k v : List Char) (hk : ¬(k = key)) (hks : ':' ∉ k) :
    ∃ e, keyedFromStr key ty val pv (k ++ ':' :: v) = .error e := by
  unfold keyedFromStr
  rw [splitOnce_append ':' k v hks]
  simp only [keyedCont]
  rw [if_neg hk]
  exact ⟨_, rfl⟩

theorem Tcp.fromStr_error_head (c : Char) (hc : ¬(c = 't')) (cs : List Char) :
    Tcp.fromStr (c :: cs) = .error (tcpSyntaxErr (c :: cs)) := by
  unfold Tcp.fromStr
  have h : stripPre (str "tcp:") (c :: cs) = none := by
    have ht : str "tcp:" = 't' :: str "cp:" := by decide
    rw [ht]
    simp only [stripPre]
    rw [if_neg hc]
  rw [h]
  rfl

theorem vsockFromStr_display (c p : Nat) :
    vsockFromStr (str "vsock" ++ ':' :: (natRepr 10 c ++ ':' :: natRepr 10 p)) =
      vsockCidStep (natRepr 10 c) (natRepr 10 p) (u32FromStr (natRepr 10 c)) := by
  unfold vsockFromStr
  rw [splitOnce_append ':' _ _ (by decide)]
  simp only [vsockOuter]
  rw [if_pos trivial, if_neg (by simp)]
  rw [splitOnce_append ':' (natRepr 10 c) _ (colon_not_mem_natRepr c)]
  simp [vsockInner, vsockNums]

theorem vsockFromStr_display_ok (c p : Nat) (hc : c < 4294967296) (hp : p < 4294967296) :
    vsockFromStr (str "vsock" ++ ':' :: (natRepr 10 c ++ ':' :: natRepr 10 p)) = .ok (c, p) := by
  rw [vsockFromStr_display]
  have h1 : u32FromStr (natRepr 10 c) = some c := uintFromStr_natRepr 4294967295 c (by omega)
  rw [h1]
  simp only [vsockCidStep]
  have h2 : u32FromStr (natRepr 10 p) = some p := uintFromStr_natRepr 4294967295 p (by omega)
  rw [h2]
  simp [vsockPortStep]

theorem vsockFromStr_wrongkey (k v : List Char) (hk : ¬(k = str "vsock")) (hks : ':' ∉ k) :
    ∃ e, vsockFromStr (k ++ ':' :: v) = .error e := by
  unfold vsockFromStr
  rw [splitOnce_append ':' k v hks]
  simp only [vsockOuter]
  rw [if_neg hk]
  exact ⟨_, rfl⟩


theorem famFromStr_localAbstract (n : List Char) (hn : n ≠ []) :
    famFromStr (str "localabstract" ++ ':' :: n) = .ok (.localAbstract n) := by
  unfold famFromStr
  have hS : str "localabstract" ++ ':' :: n = 'l' :: (str "ocalabstract" ++ ':' :: n) := by
    rw [show str "localabstract" = 'l' :: str "ocalabstract" from by decide]
    rfl
  rw [hS, Tcp.fromStr_error_head 'l' (by decide) _, ← hS]
  simp only [famStep]
  unfold localAbstractFromStr
  rw [keyedFromStr_success (str "localabstract") (str "LocalAbstract") (str "unix domain socket name (string)") some n hn n rfl (by decide)]

theorem famFromStr_localReserved (n : List Char) (hn : n ≠ []) :
    famFromStr (str "localreserved" ++ ':' :: n) = .ok (.localReserved n) := by
  unfold famFromStr
  have hS : str "localreserved" ++ ':' :: n = 'l' :: (str "ocalreserved" ++ ':' :: n) := by
    rw [show str "localreserved" = 'l' :: str "ocalreserved" from by decide]
    rfl
  rw [hS, Tcp.fromStr_error_head 'l' (by decide) _, ← hS]
  simp only [famStep]
  obtain ⟨e0, he0⟩ := keyedFromStr_wrongkey (str "localabstract") (str "LocalAbstract")
    (str "unix domain socket name (string)") some (str "localreserved") n (by decide) (by decide)
  unfold localAbstractFromStr
  rw [he0]
  simp only [famStep]
  unfold localReservedFromStr
  rw [keyedFromStr_success (str "localreserved") (str "LocalReserved") (str "unix domain socket name (string)") some n hn n rfl (by decide)]

theorem famFromStr_localFileSystem (n : List Char) (hn : n ≠ []) :
    famFromStr (str "localfilesystem" ++ ':' :: n) = .ok (.localFileSystem n) := by
  unfold famFromStr
  have hS : str "localfilesystem" ++ ':' :: n = 'l' :: (str "ocalfilesystem" ++ ':' :: n) := by
    rw [show str "localfilesystem" = 'l' :: str "ocalfilesystem" from by decide]
    rfl
  rw [hS, Tcp.fromStr_error_head 'l' (by decide) _, ← hS]
  simp only [famStep]
  obtain ⟨e0, he0⟩ := keyedFromStr_wrongkey (str "localabstract") (str "LocalAbstract")
    (str "unix domain socket name (string)") some (str "localfilesystem") n (by decide) (by decide)
  unfold localAbstractFromStr
  rw [he0]
  simp only [famStep]
  obtain ⟨e1, he1⟩ := keyedFromStr_wrongkey (str "localreserved") (str "LocalReserved")
    (str "unix domain socket name (string)") some (str "localfilesystem") n (by decide) (by decide)
  unfold localReservedFromStr
  rw [he1]
  simp only [famStep]
  unfold localFileSystemFromStr
  rw [keyedFromStr_success (str "localfilesystem") (str "LocalFileSystem") (str "unix domain socket name (string)") some n hn n rfl (by decide)]

theorem famFromStr_dev (n : List Char) (hn : n ≠ []) :
    famFromStr (str "dev" ++ ':' :: n) = .ok (.dev n) := by
  unfold famFromStr
  have hS : str "dev" ++ ':' :: n = 'd' :: (str "ev" ++ ':' :: n) := by
    rw [show str "dev" = 'd' :: str "ev" from by decide]
    rfl
  rw [hS, Tcp.fromStr_error_head 'd' (by decide) _, ← hS]
  simp only [famStep]
  obtain ⟨e0, he0⟩ := keyedFromStr_wrongkey (str "localabstract") (str "LocalAbstract")
    (str "unix domain socket name (string)") some (str "dev") n (by decide) (by decide)
  unfold localAbstractFromStr
  rw [he0]
  simp only [famStep]
  obtain ⟨e1, he1⟩ := keyedFromStr_wrongkey (str "localreserved") (str "LocalReserved")
    (str "unix domain socket name (string)") some (str "dev") n (by decide) (by decide)
  unfold localReservedFromStr
  rw [he1]
  simp only [famStep]
  obtain ⟨e2, he2⟩ := keyedFromStr_wrongkey (str "localfilesystem") (str "LocalFileSystem")
    (str "unix domain socket name (string)") some (str "dev") n (by decide) (by decide)
  unfold localFileSystemFromStr
  rw [he2]
  simp only [famStep]
  unfold devFromStr
  rw [keyedFromStr_success (str "dev") (str "Dev") (str "character device name (string)") some n hn n rfl (by decide)]

theorem famFromStr_devRaw (n : List Char) (hn : n ≠ []) :
    famFromStr (str "dev-raw" ++ ':' :: n) = .ok (.devRaw n) := by
  unfold famFromStr
  have hS : str "dev-raw" ++ ':' :: n = 'd' :: (str "ev-raw" ++ ':' :: n) := by
    rw [show str "dev-raw" = 'd' :: str "ev-raw" from by decide]
    rfl
  rw [hS, Tcp.fromStr_error_head 'd' (by decide) _, ← hS]
  simp only [famStep]
  obtain ⟨e0, he0⟩ := keyedFromStr_wrongkey (str "localabstract") (str "LocalAbstract")
    (str "unix domain socket name (string)") some (str "dev-raw") n (by decide) (by decide)
  unfold localAbstractFromStr
  rw [he0]
  simp only [famStep]
  obtain ⟨e1, he1⟩ := keyedFromStr_wrongkey (str "localreserved") (str "LocalReserved")
    (str "unix domain socket name (string)") some (str "dev-raw") n (by decide) (by decide)
  unfold localReservedFromStr
  rw [he1]
  simp only [famStep]
  obtain ⟨e2, he2⟩ := keyedFromStr_wrongkey (str "localfilesystem") (str "LocalFileSystem")
    (str "unix domain socket name (string)") some (str "dev-raw") n (by decide) (by decide)
  unfold localFileSystemFromStr
  rw [he2]
  simp only [famStep]
  obtain ⟨e3, he3⟩ := keyedFromStr_wrongkey (str "dev") (str "Dev")
    (str "character device name (string)") some (str "dev-raw") n (by decide) (by decide)
  unfold devFromStr
  rw [he3]
  simp only [famStep]
  unfold devRawFromStr
  rw [keyedFromStr_success (str "dev-raw") (str "DevRaw") (str "character device name (string)") some n hn n rfl (by decide)]

theorem famFromStr_jdwp (p : Nat) (hp : p < 4294967296) :
    famFromStr (str "jdwp" ++ ':' :: natRepr 10 p) = .ok (.jdwp p) := by
  unfold famFromStr
  have hS : str "jdwp" ++ ':' :: (natRepr 10 p) = 'j' :: (str "dwp" ++ ':' :: (natRepr 10 p)) := by
    rw [show str "jdwp" = 'j' :: str "dwp" from by decide]
    rfl
  rw [hS, Tcp.fromStr_error_head 'j' (by decide) _, ← hS]
  simp only [famStep]
  obtain ⟨e0, he0⟩ := keyedFromStr_wrongkey (str "localabstract") (str "LocalAbstract")
    (str "unix domain socket name (string)") some (str "jdwp") (natRepr 10 p) (by decide) (by decide)
  unfold localAbstractFromStr
  rw [he0]
  simp only [famStep]
  obtain ⟨e1, he1⟩ := keyedFromStr_wrongkey (str "localreserved") (str "LocalReserved")
    (str "unix domain socket name (string)") some (str "jdwp") (natRepr 10 p) (by decide) (by decide)
  unfold localReservedFromStr
  rw [he1]
  simp only [famStep]
  obtain ⟨e2, he2⟩ := keyedFromStr_wrongkey (str "localfilesystem") (str "LocalFileSystem")
    (str "unix domain socket name (string)") some (str "jdwp") (natRepr 10 p) (by decide) (by decide)
  unfold localFileSystemFromStr
  rw [he2]
  simp only [famStep]
  obtain ⟨e3, he3⟩ := keyedFromStr_wrongkey (str "dev") (str "Dev")
    (str "character device name (string)") some (str "jdwp") (natRepr 10 p) (by decide) (by decide)
  unfold devFromStr
  rw [he3]
  simp only [famStep]
  obtain ⟨e4, he4⟩ := keyedFromStr_wrongkey (str "dev-raw") (str "DevRaw")
    (str "character device name (string)") some (str "jdwp") (natRepr 10 p) (by decide) (by decide)
  unfold devRawFromStr
  rw [he4]
  simp only [famStep]
  unfold jdwpFromStr
  rw [keyedFromStr_success (str "jdwp") (str "Jdwp") (str "process pid (u32)") u32FromStr
    (natRepr 10 p) (natRepr_ne_nil 10 (by omega) p) p
    (uintFromStr_natRepr 4294967295 p (by omega)) (by decide)]

theorem famFromStr_vsock (c p : Nat) (hc : c < 4294967296) (hp : p < 4294967296) :
    famFromStr (str "vsock" ++ ':' :: (natRepr 10 c ++ ':' :: natRepr 10 p)) =
      .ok (.vsock c p) := by
  unfold famFromStr
  have hS : str "vsock" ++ ':' :: (natRepr 10 c ++ ':' :: natRepr 10 p) = 'v' :: (str "sock" ++ ':' :: (natRepr 10 c ++ ':' :: natRepr 10 p)) := by
    rw [show str "vsock" = 'v' :: str "sock" from by decide]
    rfl
  rw [hS, Tcp.fromStr_error_head 'v' (by decide) _, ← hS]
  simp only [famStep]
  obtain ⟨e0, he0⟩ := keyedFromStr_wrongkey (str "localabstract") (str "LocalAbstract")
    (str "unix domain socket name (string)") some (str "vsock") (natRepr 10 c ++ ':' :: natRepr 10 p) (by decide) (by decide)
  unfold localAbstractFromStr
  rw [he0]
  simp only [famStep]
  obtain ⟨e1, he1⟩ := keyedFromStr_wrongkey (str "localreserved") (str "LocalReserved")
    (str "unix domain socket name (string)") some (str "vsock") (natRepr 10 c ++ ':' :: natRepr 10 p) (by decide) (by decide)
  unfold localReservedFromStr
  rw [he1]
  simp only [famStep]
  obtain ⟨e2, he2⟩ := keyedFromStr_wrongkey (str "localfilesystem") (str "LocalFileSystem")
    (str "unix domain socket name (string)") some (str "vsock") (natRepr 10 c ++ ':' :: natRepr 10 p) (by decide) (by decide)
  unfold localFileSystemFromStr
  rw [he2]
  simp only [famStep]
  obtain ⟨e3, he3⟩ := keyedFromStr_wrongkey (str "dev") (str "Dev")
    (str "character device name (string)") some (str "vsock") (natRepr 10 c ++ ':' :: natRepr 10 p) (by decide) (by decide)
  unfold devFromStr
  rw [he3]
  simp only [famStep]
  obtain ⟨e4, he4⟩ := keyedFromStr_wrongkey (str "dev-raw") (str "DevRaw")
    (str "character device name (string)") some (str "vsock") (natRepr 10 c ++ ':' :: natRepr 10 p) (by decide) (by decide)
  unfold devRawFromStr
  rw [he4]
  simp only [famStep]
  obtain ⟨e5, he5⟩ := keyedFromStr_wrongkey (str "jdwp") (str "Jdwp")
    (str "process pid (u32)") u32FromStr (str "vsock") (natRepr 10 c ++ ':' :: natRepr 10 p) (by decide) (by decide)
  unfold jdwpFromStr
  rw [he5]
  simp only [famStep]
  rw [vsockFromStr_display_ok c p hc hp]

theorem famFromStr_acceptFd (p : Nat) (hp : p < 4294967296) :
    famFromStr (str "acceptfd" ++ ':' :: natRepr 10 p) = .ok (.acceptFd p) := by
  unfold famFromStr
  have hS : str "acceptfd" ++ ':' :: (natRepr 10 p) = 'a' :: (str "cceptfd" ++ ':' :: (natRepr 10 p)) := by
    rw [show str "acceptfd" = 'a' :: str "cceptfd" from by decide]
    rfl
  rw [hS, Tcp.fromStr_error_head 'a' (by decide) _, ← hS]
  simp only [famStep]
  obtain ⟨e0, he0⟩ := keyedFromStr_wrongkey (str "localabstract") (str "LocalAbstract")
    (str "unix domain socket name (string)") some (str "acceptfd") (natRepr 10 p) (by decide) (by decide)
  unfold localAbstractFromStr
  rw [he0]
  simp only [famStep]
  obtain ⟨e1, he1⟩ := keyedFromStr_wrongkey (str "localreserved") (str "LocalReserved")
    (str "unix domain socket name (string)") some (str "acceptfd") (natRepr 10 p) (by decide) (by decide)
  unfold localReservedFromStr
  rw [he1]
  simp only [famStep]
  obtain ⟨e2, he2⟩ := keyedFromStr_wrongkey (str "localfilesystem") (str "LocalFileSystem")
    (str "unix domain socket name (string)") some (str "acceptfd") (natRepr 10 p) (by decide) (by decide)
  unfold localFileSystemFromStr
  rw [he2]
  simp only [famStep]
  obtain ⟨e3, he3⟩ := keyedFromStr_wrongkey (str "dev") (str "Dev")
    (str "character device name (string)") some (str "acceptfd") (natRepr 10 p) (by decide) (by decide)
  unfold devFromStr
  rw [he3]
  simp only [famStep]
  obtain ⟨e4, he4⟩ := keyedFromStr_wrongkey (str "dev-raw") (str "DevRaw")
    (str "character device name (string)") some (str "acceptfd") (natRepr 10 p) (by decide) (by decide)
  unfold devRawFromStr
  rw [he4]
  simp only [famStep]
  obtain ⟨e5, he5⟩ := keyedFromStr_wrongkey (str "jdwp") (str "Jdwp")
    (str "process pid (u32)") u32FromStr (str "acceptfd") (natRepr 10 p) (by decide) (by decide)
  unfold jdwpFromStr
  rw [he5]
  simp only [famStep]
  obtain ⟨e6, he6⟩ := vsockFromStr_wrongkey (str "acceptfd") (natRepr 10 p) (by decide) (by decide)
  rw [he6]
  simp only [famStep]
  unfold acceptFdFromStr
  rw [keyedFromStr_success (str "acceptfd") (str "AcceptFd") (str "fd (u32)") u32FromStr
    (natRepr 10 p) (natRepr_ne_nil 10 (by omega) p) p
    (uintFromStr_natRepr 4294967295 p (by omega)) (by decide)]

/-- C1: for every valid `SocketEndpoint` (`AdbSocketFamily`) value — any of the
nine family variants, the `Tcp` value with neither ip nor port being excluded
by validity — parsing (`AdbSocketFamily::from_str`) the string produced by
formatting it (`Display`) yields the same value. -/
theorem c1_format_parse_roundtrip (v : AdbSocketFamily) (hv : v.Valid) :
    famFromStr (famDisplay v) = .ok v := by
  match v, hv with
  | .tcp t, hv =>
    show famFromStr t.display = _
    unfold famFromStr
    rw [Tcp.fromStr_display t hv]
    rfl
  | .localAbstract n, hv =>
    show famFromStr (str "localabstract:" ++ n) = _
    have h : str "localabstract:" ++ n = str "localabstract" ++ ':' :: n := by
      rw [show str "localabstract:" = str "localabstract" ++ [':'] from by decide]
      simp
    rw [h, famFromStr_localAbstract n hv]
  | .localReserved n, hv =>
    show famFromStr (str "localreserved:" ++ n) = _
    have h : str "localreserved:" ++ n = str "localreserved" ++ ':' :: n := by
      rw [show str "localreserved:" = str "localreserved" ++ [':'] from by decide]
      simp
    rw [h, famFromStr_localReserved n hv]
  | .localFileSystem n, hv =>
    show famFromStr (str "localfilesystem:" ++ n) = _
    have h : str "localfilesystem:" ++ n = str "localfilesystem" ++ ':' :: n := by
      rw [show str "localfilesystem:" = str "localfilesystem" ++ [':'] from by decide]
      simp
    rw [h, famFromStr_localFileSystem n hv]
  | .dev n, hv =>
    show famFromStr (str "dev:" ++ n) = _
    have h : str "dev:" ++ n = str "dev" ++ ':' :: n := by
      rw [show str "dev:" = str "dev" ++ [':'] from by decide]
      simp
    rw [h, famFromStr_dev n hv]
  | .devRaw n, hv =>
    show famFromStr (str "dev-raw:" ++ n) = _
    have h : str "dev-raw:" ++ n = str "dev-raw" ++ ':' :: n := by
      rw [show str "dev-raw:" = str "dev-raw" ++ [':'] from by decide]
      simp
    rw [h, famFromStr_devRaw n hv]
  | .jdwp p, hv =>
    show famFromStr (str "jdwp:" ++ natRepr 10 p) = _
    have h : str "jdwp:" ++ natRepr 10 p = str "jdwp" ++ ':' :: natRepr 10 p := by
      rw [show str "jdwp:" = str "jdwp" ++ [':'] from by decide]
      simp
    rw [h, famFromStr_jdwp p hv]
  | .vsock c p, hv =>
    show famFromStr (str "vsock:" ++ natRepr 10 c ++ [':'] ++ natRepr 10 p) = _
    have h : str "vsock:" ++ natRepr 10 c ++ [':'] ++ natRepr 10 p =
        str "vsock" ++ ':' :: (natRepr 10 c ++ ':' :: natRepr 10 p) := by
      rw [show str "vsock:" = str "vsock" ++ [':'] from by decide]
      simp
    rw [h, famFromStr_vsock c p hv.1 hv.2]
  | .acceptFd f, hv =>
    show famFromStr (str "acceptfd:" ++ natRepr 10 f) = _
    have h : str "acceptfd:" ++ natRepr 10 f = str "acceptfd" ++ ':' :: natRepr 10 f := by
      rw [show str "acceptfd:" = str "acceptfd" ++ [':'] from by decide]
      simp
    rw [h, famFromStr_acceptFd f hv]

/-- Witness for C1 at a concrete valid value (an IPv6 `Tcp` endpoint with a
port). -/
theorem c1_format_parse_roundtrip_witness :
    AdbSocketFamily.Valid
        (.tcp ⟨some (.v6 ⟨0, 0, 0, 0, 0, 0, 0, 1⟩), some 5555⟩) ∧
      famFromStr (famDisplay (.tcp ⟨some (.v6 ⟨0, 0, 0, 0, 0, 0, 0, 1⟩), some 5555⟩)) =
        .ok (.tcp ⟨some (.v6 ⟨0, 0, 0, 0, 0, 0, 0, 1⟩), some 5555⟩) :=
  ⟨by decide, c1_format_parse_roundtrip _ (by decide)⟩

/-! ## Whitespace and trimming -/

theorem dropWhile_ws_append (l t : List Char) (hl : ∀ c ∈ l, isRustWs c = true) :
    (l ++ t).dropWhile (fun c => isRustWs c) = t.dropWhile (fun c => isRustWs c) := by
  induction l with
  | nil => rfl
  | cons c cs ih =>
    simp only [List.cons_append, List.dropWhile_cons, hl c (List.mem_cons_self c cs), if_true]
    exact ih fun x hx => hl x (List.mem_cons_of_mem _ hx)

theorem trimList_append_left (l t : List Char) (hl : ∀ c ∈ l, isRustWs c = true) :
    trimList (l ++ t) = trimList t := by
  unfold trimList
  rw [dropWhile_ws_append l t hl]

theorem trimList_append_right (s r : List Char) (hr : ∀ c ∈ r, isRustWs c = true) :
    trimList (s ++ r) = trimList s := by
  unfold trimList
  cases hd : s.dropWhile (fun c => isRustWs c) with
  | nil =>
    have hs : ∀ c ∈ s, isRustWs c = true := by
      rw [← List.dropWhile_eq_nil_iff]
      exact hd
    rw [dropWhile_ws_append s r hs]
    have hrr : r.dropWhile (fun c => isRustWs c) = [] := List.dropWhile_eq_nil_iff.2 hr
    rw [hrr]
  | cons c cs =>
    have hsplit : (s ++ r).dropWhile (fun c => isRustWs c) = (c :: cs) ++ r := by
      rw [List.dropWhile_append, hd]
      simp
    rw [hsplit]
    have hrev : ((c :: cs) ++ r).reverse = r.reverse ++ (c :: cs).reverse := by
      simp
    rw [hrev, dropWhile_ws_append r.reverse _ (by intro x hx; exact hr x (by simpa using hx))]

theorem trimList_pad (l r s : List Char) (hl : ∀ c ∈ l, isRustWs c = true)
    (hr : ∀ c ∈ r, isRustWs c = true) :
    trimList (l ++ s ++ r) = trimList s := by
  rw [List.append_assoc, trimList_append_left l (s ++ r) hl, trimList_append_right s r hr]

theorem splitOnceWs_none (s : List Char) (h : ∀ c ∈ s, isRustWs c = false) :
    splitOnceWs s = none := by
  induction s with
  | nil => rfl
  | cons c cs ih =>
    simp only [splitOnceWs]
    rw [if_neg (by rw [h c (List.mem_cons_self c cs)]; simp)]
    rw [ih fun x hx => h x (List.mem_cons_of_mem _ hx)]

/-- C8: global-option parsing: `"-a"` is ListenAll, `"-s emulator-123"` is
Serial, `"-s"` fails with the missing-value error, `"-z foo"` fails with the
unknown-option error, and whitespace padding never changes the result. -/
theorem c8_global_option_parsing :
    AdbGlobalOption.fromStr (str "-a") = .ok .listenAll ∧
      AdbGlobalOption.fromStr (str "-s emulator-123") = .ok (.serial (str "emulator-123")) ∧
      AdbGlobalOption.fromStr (str "-s") =
        .error (.parse (.withDescription (str "no value") (str "&str")
          (str "missing value"))) ∧
      AdbGlobalOption.fromStr (str "-z foo") =
        .error (.parse (.withDescription (str "-z") (str "GlobalOption")
          (str "unknown option"))) ∧
      ∀ (l r s : List Char), (∀ c ∈ l, isRustWs c = true) → (∀ c ∈ r, isRustWs c = true) →
        AdbGlobalOption.fromStr (l ++ s ++ r) = AdbGlobalOption.fromStr s := by
  refine ⟨by decide, by decide, by decide, by decide, ?_⟩
  intro l r s hl hr
  unfold AdbGlobalOption.fromStr
  rw [trimList_pad l r s hl hr]

/-- Witness for C8: the padded `"-a"` of the repository's own test parses like
the trimmed one. -/
theorem c8_global_option_parsing_witness :
    AdbGlobalOption.fromStr (str "\r\n\t " ++ str "-a" ++ str " \t\r\n") =
      AdbGlobalOption.fromStr (str "-a") :=
  c8_global_option_parsing.2.2.2.2 (str "\r\n\t ") (str " \t\r\n") (str "-a")
    (by decide) (by decide)

/-- C10: any input whose trimmed form has no whitespace and is none of the four
valueless flags fails with the missing-value error — before flag recognition,
so even an unknown flag like `"-z"` gets the missing-value error. -/
theorem c10_missing_value_first (s : List Char)
    (hws : ∀ c ∈ trimList s, isRustWs c = false)
    (h1 : trimList s ≠ str "-a") (h2 : trimList s ≠ str "-d")
    (h3 : trimList s ≠ str "-e") (h4 : trimList s ≠ str "--exit-on-write-error") :
    AdbGlobalOption.fromStr s =
      .error (.parse (.withDescription (str "no value") (str "&str")
        (str "missing value"))) := by
  unfold AdbGlobalOption.fromStr AdbGlobalOption.fromTrimmed
  rw [if_neg h1, if_neg h2, if_neg h3, if_neg h4, splitOnceWs_none _ hws]
  rfl

/-- Witness for C10 at the unknown flag `"-z"`. -/
theorem c10_missing_value_first_witness :
    AdbGlobalOption.fromStr (str "-z") =
      .error (.parse (.withDescription (str "no value") (str "&str")
        (str "missing value"))) :=
  c10_missing_value_first (str "-z") (by decide) (by decide) (by decide) (by decide) (by decide)

/-! ## Unbracketed IPv6 in `Tcp::from_str` -/

theorem ipv6Display_head_not_lbracket (a : Ipv6Addr) :
    ∃ c cs, ipv6Display a = c :: cs ∧ c ≠ '[' := by
  obtain ⟨c, cs, heq, hc⟩ := ipv6Display_head a
  refine ⟨c, cs, heq, ?_⟩
  rcases hc with hc | ⟨d, hd, hcd⟩
  · rw [hc]; decide
  · rw [hcd]; interval_cases d <;> decide

theorem sockAddr_ipv6Display_none (a : Ipv6Addr) :
    sockAddrFromStr (ipv6Display a) = none := by
  unfold sockAddrFromStr readSockV4
  have hip : readIpv4 (ipv6Display a) = none := by
    have := readIpv4_ipv6Display a []
    rwa [List.append_nil] at this
  rw [hip, Option.none_bind]
  simp only [sockOr]
  unfold readSockV6
  have hlb : stripLBracket (ipv6Display a) = none := by
    obtain ⟨c, cs, heq, hc⟩ := ipv6Display_head_not_lbracket a
    rw [heq]
    simp only [stripLBracket]
    rw [if_neg hc]
  rw [hlb, Option.none_bind]
  rfl

theorem tcp_unbracketed_v6 (a : Ipv6Addr) :
    Tcp.fromStr (str "tcp:" ++ ipv6Display a) =
      .error (.parse (.withDescription (ipv6Display a) (str "Tcp")
        (str "ipv6 address must be enclosed in square brackets"))) := by
  rw [tcp_fromStr_value _ (ipv6Display_ne_nil a)]
  have hu16 : u16FromStr (ipv6Display a) = none := by
    have := u16FromStr_ipv6Display a []
    rwa [List.append_nil] at this
  rw [hu16]
  simp only [tcpU16]
  rw [sockAddr_ipv6Display_none a]
  simp only [tcpSock]
  have hv4 : ipv4FromStr (ipv6Display a) = none := by
    unfold ipv4FromStr
    have := readIpv4_ipv6Display a []
    rw [List.append_nil] at this
    rw [this]
    rfl
  rw [hv4]
  simp only [tcpV4]
  obtain ⟨c, cs, heq, hc⟩ := ipv6Display_head_not_lbracket a
  have hsp : stripPre ['['] (ipv6Display a) = none := by
    rw [heq]
    exact stripPre_ne_head ['['] (by simp) c cs
      (fun d ds hd => by injection hd with h1 _; rw [← h1]; exact hc)
  rw [hsp, Option.none_bind]
  simp only [tcpBracket]

/-- C3 counterexample: the claim says an unbracketed bare IPv6 literal after
`tcp:` is accepted, but `"tcp:::1"` — `tcp:` followed by the unbracketed
literal `::1` — is rejected with the brackets-required error. -/
theorem c3_counterexample :
    Tcp.fromStr (str "tcp:::1") =
      .error (.parse (.withDescription (str "::1") (str "Tcp")
        (str "ipv6 address must be enclosed in square brackets"))) := by
  decide

/-- C3 (corrected): for every IPv6 address, the unbracketed form
`tcp:<v6>` is rejected with the brackets-required error, while the
bracketed `tcp:[<v6>]` is accepted, yielding ip = the address and no port. -/
theorem c3_unbracketed_v6_rejected (a : Ipv6Addr) (wf : Ipv6Wf a) :
    Tcp.fromStr (str "tcp:" ++ ipv6Display a) =
        .error (.parse (.withDescription (ipv6Display a) (str "Tcp")
          (str "ipv6 address must be enclosed in square brackets"))) ∧
      Tcp.fromStr (str "tcp:" ++ ('[' :: (ipv6Display a ++ [']']))) =
        .ok (Tcp.withIpv6 a) :=
  ⟨tcp_unbracketed_v6 a, tcp_roundtrip_v6 a wf⟩

/-- Witness for C3 at the address `::1`. -/
theorem c3_unbracketed_v6_rejected_witness :
    Tcp.fromStr (str "tcp:" ++ ipv6Display ⟨0, 0, 0, 0, 0, 0, 0, 1⟩) =
        .error (.parse (.withDescription (ipv6Display ⟨0, 0, 0, 0, 0, 0, 0, 1⟩)
          (str "Tcp") (str "ipv6 address must be enclosed in square brackets"))) ∧
      Tcp.fromStr (str "tcp:" ++ ('[' :: (ipv6Display ⟨0, 0, 0, 0, 0, 0, 0, 1⟩ ++ [']']))) =
        .ok (Tcp.withIpv6 ⟨0, 0, 0, 0, 0, 0, 0, 1⟩) :=
  c3_unbracketed_v6_rejected ⟨0, 0, 0, 0, 0, 0, 0, 1⟩ (by decide)

/-- C4 counterexample: the claim says an IPv6 `Tcp` without a port is
formatted unbracketed after `tcp:`; but the display of ip = `::1`, no port,
is the bracketed `"tcp:[::1]"`, not `"tcp:" ++ "::1"`. -/
theorem c4_counterexample :
    Tcp.display ⟨some (.v6 ⟨0, 0, 0, 0, 0, 0, 0, 1⟩), none⟩ = str "tcp:[::1]" ∧
      Tcp.display ⟨some (.v6 ⟨0, 0, 0, 0, 0, 0, 0, 1⟩), none⟩ ≠
        str "tcp:" ++ ipv6Display ⟨0, 0, 0, 0, 0, 0, 0, 1⟩ := by
  decide

/-- C4 (corrected): an IPv6 `Tcp` is always displayed with square brackets
around the address — `tcp:[<v6>]:<port>` when a port is present, and the
still-bracketed `tcp:[<v6>]` when no port is present. -/
theorem c4_v6_display_bracketed (a : Ipv6Addr) (p : Nat) :
    Tcp.display ⟨some (.v6 a), some p⟩ =
        str "tcp:[" ++ ipv6Display a ++ str "]:" ++ natRepr 10 p ∧
      Tcp.display ⟨some (.v6 a), none⟩ = str "tcp:[" ++ ipv6Display a ++ [']'] :=
  ⟨rfl, rfl⟩

/-! ## The family-level error (`AdbSocketFamily::from_str`) -/

theorem famStep_error {α : Type} (f : α → AdbSocketFamily)
    (next : Except AdbError AdbSocketFamily) (r : Except AdbError α) (e : AdbError)
    (h : famStep f next r = .error e) : next = .error e := by
  cases r with
  | ok a => simp [famStep] at h
  | error e2 => simpa [famStep] using h

/-- C5 counterexample: the claim says every parse failure carries the original
input string, but the missing-value failure of global-option parsing on
`"-s"` carries the literal value `"no value"`, not the input `"-s"`. -/
theorem c5_counterexample :
    AdbGlobalOption.fromStr (str "-s") =
        .error (.parse (.withDescription (str "no value") (str "&str")
          (str "missing value"))) ∧
      ¬(str "no value" = str "-s") := by
  decide

/-- C5 (corrected for the family level): whenever `AdbSocketFamily` parsing
fails, the error does carry the original input, with target `AdbSocketFamily`
and description `invalid syntax`. -/
theorem c5_family_error_carries_input (s : List Char) (e : AdbError)
    (h : famFromStr s = .error e) :
    e = .parse (.withDescription s (str "AdbSocketFamily") (str "invalid syntax")) := by
  unfold famFromStr at h
  have h1 := famStep_error _ _ _ _ h
  have h2 := famStep_error _ _ _ _ h1
  have h3 := famStep_error _ _ _ _ h2
  have h4 := famStep_error _ _ _ _ h3
  have h5 := famStep_error _ _ _ _ h4
  have h6 := famStep_error _ _ _ _ h5
  have h7 := famStep_error _ _ _ _ h6
  have h8 := famStep_error _ _ _ _ h7
  have h9 := famStep_error _ _ _ _ h8
  exact (Except.error.inj h9).symm

/-- Witness for C5 at the empty input, on which family parsing fails. -/
theorem c5_family_error_carries_input_witness :
    AdbError.parse (.withDescription (str "") (str "AdbSocketFamily")
        (str "invalid syntax")) =
      .parse (.withDescription (str "") (str "AdbSocketFamily") (str "invalid syntax")) :=
  c5_family_error_carries_input (str "") _ (by decide)

/-- C7: the five concrete non-resolving `Tcp` parses: `"tcp:"` fails,
`"tcp:5555"` is port-only, `"tcp:127.0.0.1:5555"` is an IPv4 with port,
`"tcp:[::1]:5555"` is an IPv6 with port, and `"tcp:::1"` fails. -/
theorem c7_tcp_parse_cases :
    (∃ e, Tcp.fromStr (str "tcp:") = .error e) ∧
      Tcp.fromStr (str "tcp:5555") = .ok ⟨none, some 5555⟩ ∧
      Tcp.fromStr (str "tcp:127.0.0.1:5555") =
        .ok ⟨some (.v4 ⟨127, 0, 0, 1⟩), some 5555⟩ ∧
      Tcp.fromStr (str "tcp:[::1]:5555") =
        .ok ⟨some (.v6 ⟨0, 0, 0, 0, 0, 0, 0, 1⟩), some 5555⟩ ∧
      (∃ e, Tcp.fromStr (str "tcp:::1") = .error e) := by
  refine ⟨⟨tcpSyntaxErr (str "tcp:"), by decide⟩, by decide, by decide, by decide,
    ⟨.parse (.withDescription (str "::1") (str "Tcp")
      (str "ipv6 address must be enclosed in square brackets")), by decide⟩⟩

/-- C9: the numeric families accept exactly in-range decimal payloads:
`"vsock:1:2"` parses to cid 1 and port 2, while `"vsock:1"`, `"vsock::1"`
and `"vsock:-1:-1"` fail; `"jdwp:1234"` parses to 1234, while
`"jdwp:4294967296"` (2^32, u32 overflow) fails. -/
theorem c9_numeric_family_cases :
    vsockFromStr (str "vsock:1:2") = .ok (1, 2) ∧
      (∃ e, vsockFromStr (str "vsock:1") = .error e) ∧
      (∃ e, vsockFromStr (str "vsock::1") = .error e) ∧
      (∃ e, vsockFromStr (str "vsock:-1:-1") = .error e) ∧
      jdwpFromStr (str "jdwp:1234") = .ok 1234 ∧
      (∃ e, jdwpFromStr (str "jdwp:4294967296") = .error e) := by
  refine ⟨by decide,
    ⟨.parse (.withDescription (str "1") (str "Vsock") (str "missing port")), by decide⟩,
    ⟨.parse (.withSrc (str "") (str "cid (u32)") .intParse), by decide⟩,
    ⟨.parse (.withSrc (str "-1") (str "cid (u32)") .intParse), by decide⟩,
    by decide,
    ⟨.parse (.withSrc (str "4294967296") (str "process pid (u32)") .intParse), by decide⟩⟩

/-! ## The at-most-one-option-per-kind invariant -/

theorem countP_filter_le_self {α : Type} (p q : α → Bool) (l : List α) :
    (l.filter q).countP p ≤ l.countP p := by
  induction l with
  | nil => simp
  | cons x xs ih =>
    rw [List.filter_cons, List.countP_cons]
    by_cases hq : q x
    · rw [if_pos hq, List.countP_cons]
      omega
    · rw [if_neg hq]
      omega

theorem addGlobalOption_kinds (l : List AdbGlobalOption) (opt : AdbGlobalOption)
    (pred : AdbGlobalOption → Bool) (hpred : ∀ o, pred o = true ↔ o.kind = opt.kind)
    (hinv : AtMostOnePerKind l) : AtMostOnePerKind (addGlobalOption l opt pred) := by
  intro k
  unfold addGlobalOption hsInsert
  by_cases hmem : opt ∈ l.filter fun o => !pred o
  · rw [if_pos hmem]
    calc kindCount k (l.filter fun o => !pred o) ≤ kindCount k l :=
          countP_filter_le_self _ _ l
      _ ≤ 1 := hinv k
  · rw [if_neg hmem]
    unfold kindCount
    rw [List.countP_append]
    by_cases hk : opt.kind = k
    · have h0 : (l.filter fun o => !pred o).countP (fun o => decide (o.kind = k)) = 0 := by
        rw [List.countP_eq_zero]
        intro o ho hok
        have hf := List.of_mem_filter ho
        rw [Bool.not_eq_eq_eq_not, Bool.not_true] at hf
        have hkind : o.kind = opt.kind := by rw [of_decide_eq_true hok, hk]
        rw [(hpred o).2 hkind] at hf
        exact Bool.true_eq_false.mp hf
      rw [h0]
      simp [List.countP_cons, hk]
    · have h1 : List.countP (fun o => decide (o.kind = k)) [opt] = 0 := by
        simp [List.countP_cons, hk]
      rw [h1, Nat.add_zero]
      calc (l.filter fun o => !pred o).countP (fun o => decide (o.kind = k)) ≤
            l.countP (fun o => decide (o.kind = k)) := countP_filter_le_self _ _ l
        _ ≤ 1 := hinv k

theorem addGlobalOptionUnchecked_kinds (l : List AdbGlobalOption) (opt : AdbGlobalOption)
    (hopt : ∀ o : AdbGlobalOption, o.kind = opt.kind → o = opt)
    (hinv : AtMostOnePerKind l) : AtMostOnePerKind (addGlobalOptionUnchecked l opt) := by
  intro k
  unfold addGlobalOptionUnchecked hsInsert
  by_cases hmem : opt ∈ l
  · rw [if_pos hmem]
    exact hinv k
  · rw [if_neg hmem]
    unfold kindCount
    rw [List.countP_append]
    by_cases hk : opt.kind = k
    · have h0 : l.countP (fun o => decide (o.kind = k)) = 0 := by
        rw [List.countP_eq_zero]
        intro o ho hok
        have heq : o = opt := hopt o (by rw [of_decide_eq_true hok, hk])
        exact hmem (heq ▸ ho)
      rw [h0]
      simp [List.countP_cons, hk]
    · have h1 : List.countP (fun o => decide (o.kind = k)) [opt] = 0 := by
        simp [List.countP_cons, hk]
      rw [h1, Nat.add_zero]
      exact hinv k

theorem applyOp_kinds (l : List AdbGlobalOption) (op : BuilderOp)
    (hinv : AtMostOnePerKind l) : AtMostOnePerKind (applyOp l op) := by
  cases op with
  | listenAll =>
    exact addGlobalOptionUnchecked_kinds l _
      (fun o ho => by cases o <;> simp_all [AdbGlobalOption.kind]) hinv
  | usb =>
    exact addGlobalOptionUnchecked_kinds l _
      (fun o ho => by cases o <;> simp_all [AdbGlobalOption.kind]) hinv
  | tcpIp =>
    exact addGlobalOptionUnchecked_kinds l _
      (fun o ho => by cases o <;> simp_all [AdbGlobalOption.kind]) hinv
  | exitOnWriteError =>
    exact addGlobalOptionUnchecked_kinds l _
      (fun o ho => by cases o <;> simp_all [AdbGlobalOption.kind]) hinv
  | serial s =>
    exact addGlobalOption_kinds l _ _
      (fun o => by cases o <;> simp [isSerialOpt, AdbGlobalOption.kind]) hinv
  | transportId s =>
    exact addGlobalOption_kinds l _ _
      (fun o => by cases o <;> simp [isTransportIdOpt, AdbGlobalOption.kind]) hinv
  | host ip =>
    exact addGlobalOption_kinds l _ _
      (fun o => by cases o <;> simp [isHostOpt, AdbGlobalOption.kind]) hinv
  | port p =>
    exact addGlobalOption_kinds l _ _
      (fun o => by cases o <;> simp [isPortOpt, AdbGlobalOption.kind]) hinv
  | listen t =>
    exact addGlobalOption_kinds l _ _
      (fun o => by cases o <;> simp [isListenOpt, AdbGlobalOption.kind]) hinv
  | oneDevice s =>
    exact addGlobalOption_kinds l _ _
      (fun o => by cases o <;> simp [isOneDeviceOpt, AdbGlobalOption.kind]) hinv

theorem foldl_applyOp_kinds (ops : List BuilderOp) (l : List AdbGlobalOption)
    (hinv : AtMostOnePerKind l) : AtMostOnePerKind (ops.foldl applyOp l) := by
  induction ops generalizing l with
  | nil => exact hinv
  | cons op rest ih => exact ih _ (applyOp_kinds l op hinv)

/-- C2: every sequence of builder operations keeps at most one option per
kind; inserting `Serial("A")` then `Serial("B")` leaves exactly
`Serial("B")`, and inserting ListenAll twice leaves a single entry. -/
theorem c2_at_most_one_per_kind :
    (∀ ops : List BuilderOp, AtMostOnePerKind (applyOps ops)) ∧
      applyOps [.serial (str "A"), .serial (str "B")] = [.serial (str "B")] ∧
      applyOps [.listenAll, .listenAll] = [.listenAll] :=
  ⟨fun ops => foldl_applyOp_kinds ops []
      (fun k => by simp [kindCount, List.countP_nil]),
    by decide, by decide⟩

/-! ## Host resolution -/

theorem tcpFromStr_error_target (s : List Char) (pe : ParseError)
    (h : Tcp.fromStr s = .error (.parse pe)) :
    pe.target = str "Tcp" ∨ pe.target = str "Ipv6Addr" := by
  unfold Tcp.fromStr at h
  cases hsp : stripPre (str "tcp:") s with
  | none =>
    rw [hsp] at h
    simp only [tcpStart, tcpSyntaxErr] at h
    left
    rw [← AdbError.parse.inj (Except.error.inj h)]
    rfl
  | some v =>
    rw [hsp] at h
    simp only [tcpStart] at h
    by_cases hv : v = []
    · rw [if_pos hv] at h
      simp only [tcpSyntaxErr] at h
      left
      rw [← AdbError.parse.inj (Except.error.inj h)]
      rfl
    · rw [if_neg hv] at h
      cases hu : u16FromStr v with
      | some p =>
        rw [hu] at h
        simp only [tcpU16] at h
        exact Except.noConfusion h
      | none =>
        rw [hu] at h
        simp only [tcpU16] at h
        cases hs2 : sockAddrFromStr v with
        | some sa =>
          rw [hs2] at h
          simp only [tcpSock] at h
          exact Except.noConfusion h
        | none =>
          rw [hs2] at h
          simp only [tcpSock] at h
          cases h4 : ipv4FromStr v with
          | some a =>
            rw [h4] at h
            simp only [tcpV4] at h
            exact Except.noConfusion h
          | none =>
            rw [h4] at h
            simp only [tcpV4] at h
            cases hb : (stripPre ['['] v).bind (stripSuf [']']) with
            | none =>
              rw [hb] at h
              simp only [tcpBracket] at h
              left
              rw [← AdbError.parse.inj (Except.error.inj h)]
              rfl
            | some inner =>
              rw [hb] at h
              simp only [tcpBracket] at h
              cases h6 : ipv6FromStr inner with
              | some a =>
                rw [h6] at h
                simp only [tcpV6] at h
                exact Except.noConfusion h
              | none =>
                rw [h6] at h
                simp only [tcpV6] at h
                right
                rw [← AdbError.parse.inj (Except.error.inj h)]
                rfl

/-- C6: with the operating-system resolver modelled as an explicit function,
(1) if resolving `"localhost"` alone fails but `"localhost:0"` yields
`127.0.0.1:0` first, `Tcp::from_host("localhost")` returns
`Tcp::with_ipv4(127.0.0.1)`; (2) on a hostname that neither parses nor
resolves (with or without `":0"`), `from_host` fails with the resolution
error — which differs from every error the non-resolving parser produces. -/
theorem c6_from_host (resolver : List Char → Except (List Char) (List SocketAddr)) :
    (∀ e addrs, resolver (str "localhost") = .error e →
        resolver (str "localhost" ++ [':', '0']) = .ok (.v4 ⟨127, 0, 0, 1⟩ 0 :: addrs) →
        Tcp.fromHost resolver (str "localhost") = .ok (Tcp.withIpv4 ⟨127, 0, 0, 1⟩)) ∧
      ∀ hst e e2 e3, Tcp.fromStr hst = .error e2 → resolver hst = .error e →
        resolver (hst ++ [':', '0']) = .error e3 →
        Tcp.fromHost resolver hst =
            .error (.parse (.withSrc hst (str "std::vec::IntoIter<SocketAddr>")
              (.ioErr e))) ∧
          ∀ (s : List Char) (pe : ParseError), Tcp.fromStr s = .error (.parse pe) →
            AdbError.parse pe ≠
              .parse (.withSrc hst (str "std::vec::IntoIter<SocketAddr>") (.ioErr e)) := by
  constructor
  · intro e addrs he hok
    unfold Tcp.fromHost
    have hp : Tcp.fromStr (str "localhost") = .error (tcpSyntaxErr (str "localhost")) := by
      decide
    rw [hp]
    simp only [fromHostStep1]
    unfold Tcp.resolve
    rw [he]
    simp only [resolveRes, fromHostStep2]
    unfold Tcp.resolve
    rw [hok]
    simp only [resolveRes, resolvePick, fromHostRetry]
    rfl
  · intro hst e e2 e3 hfs hre hre0
    constructor
    · unfold Tcp.fromHost
      rw [hfs]
      simp only [fromHostStep1]
      unfold Tcp.resolve
      rw [hre]
      simp only [resolveRes, fromHostStep2]
      unfold Tcp.resolve
      rw [hre0]
      simp only [resolveRes, fromHostRetry]
    · intro s pe hpe heq
      have htgt : pe.target = str "Tcp" ∨ pe.target = str "Ipv6Addr" :=
        tcpFromStr_error_target s pe hpe
      have hpe2 := AdbError.parse.inj heq
      have h2 : pe.target = str "std::vec::IntoIter<SocketAddr>" := by
        rw [hpe2]
        rfl
      rcases htgt with htgt | htgt <;> rw [h2] at htgt <;> exact absurd htgt (by decide)

/-- Witness for C6: a resolver that knows only `"localhost:0"` resolves
`"localhost"` to 127.0.0.1, and an always-failing resolver makes
`from_host("myhost")` fail with the resolution error. -/
theorem c6_from_host_witness :
    Tcp.fromHost
        (fun q => if q = str "localhost" ++ [':', '0']
          then .ok [.v4 ⟨127, 0, 0, 1⟩ 0] else .error (str "dns failure"))
        (str "localhost") = .ok (Tcp.withIpv4 ⟨127, 0, 0, 1⟩) ∧
      Tcp.fromHost (fun _ => .error (str "dns failure")) (str "myhost") =
        .error (.parse (.withSrc (str "myhost")
          (str "std::vec::IntoIter<SocketAddr>") (.ioErr (str "dns failure")))) :=
  ⟨(c6_from_host _).1 (str "dns failure") [] (by decide) (by decide),
    ((c6_from_host _).2 (str "myhost") (str "dns failure") (tcpSyntaxErr (str "myhost"))
      (str "dns failure") (by decide) (by decide) (by decide)).1⟩
